import Mathlib

/-!
Verification of the collaborative task-orchestration core of the
`porker-vibe` repository against its natural-language specification.

The Python modules are shallowly embedded as executable Lean functions:

* `vibe/collaborative/task_manager.py`   → the `TaskManager` state machine
  (`TMState`, `applyOp`, `getNextTask`, `isTaskBlocked`, …);
* `vibe/collaborative/collaborative_router.py` → the `CollaborativeRouter`
  safety layer (`RouterState`, `routeTask`, `handleOomError`, …);
* `vibe/collaborative/model_coordinator.py`   → `ModelCoordinator.query_model`
  (`queryModel`);
* `vibe/core/middleware.py`              → the middleware pipeline and the
  loop-detection policy (`runBeforeTurn`, `runAfterTurn`, `loopAfterTurn`, …).

Conventions: Python `datetime` values are modelled as natural-number
timestamps counted in seconds (so "15 minutes" is `900`); `uuid4` ids are
modelled as freshly drawn naturals (a counter), which also makes creation
order coincide with numeric id order; reading/writing JSON files is
modelled as an optional field of the state holding the decoded content;
external effects (HTTP calls, `fcntl` lock acquisition, Ollama
availability, clock reads) are inputs supplied by the environment.
-/

namespace PorkerVibe

/-- Task types, from `task_manager.py` (`class TaskType`). -/
inductive TaskType where
  | PLANNING
  | ARCHITECTURE
  | CODE_IMPLEMENTATION
  | DOCUMENTATION
  | CODE_REVIEW
  | REFACTORING
  | TESTING
  | MAINTENANCE
  | REPOSITORY_HYGIENE
deriving DecidableEq, Repr

/-- Task statuses, from `task_manager.py` (`class TaskStatus`). -/
inductive TaskStatus where
  | PENDING
  | ASSIGNED
  | IN_PROGRESS
  | DEBUGGING
  | COMPLETED
  | BLOCKED
deriving DecidableEq, Repr

/-- Model roles, from `task_manager.py` (`class ModelRole`). -/
inductive ModelRole where
  | PLANNER
  | IMPLEMENTER
  | REVIEWER
  | DOCS
deriving DecidableEq, Repr

/-- The `.value` string of a `ModelRole` member (`task_manager.py`). -/
def ModelRole.value : ModelRole → String
  | .PLANNER => "devstral-2"
  | .IMPLEMENTER => "deepseek-coder-v2"
  | .REVIEWER => "qwq"
  | .DOCS => "llama3.2"

/-- `DEFAULT_PRIORITY = 3` from `task_manager.py`. -/
def DEFAULT_PRIORITY : Nat := 3

/-- A collaborative task record (`@dataclass CollaborativeTask`);
timestamps are natural numbers, the task id is kept as the key of the
store map rather than repeated inside the record. -/
structure CollaborativeTask where
  taskType : TaskType
  description : String
  priority : Nat
  status : TaskStatus
  assignedTo : Option ModelRole
  createdAt : Nat
  updatedAt : Nat
  dependencies : List Nat
deriving DecidableEq, Repr

/-- The in-memory state of a `TaskManager`: the insertion-ordered task map
(a Python `dict` keyed by id), the pending queue and the completed list,
plus the fresh-id counter standing in for `uuid4` generation. -/
structure TMState where
  tasks : List (Nat × CollaborativeTask)
  taskQueue : List Nat
  completedTasks : List Nat
  nextId : Nat
deriving DecidableEq, Repr

/-- The state of a freshly constructed `TaskManager` with no persisted
tasks to load. -/
def TMState.init : TMState := ⟨[], [], [], 0⟩

/-- Dictionary lookup `self.tasks.get(task_id)` / `self.tasks[task_id]`. -/
def lookupTask (s : TMState) (tid : Nat) : Option CollaborativeTask :=
  (s.tasks.find? (fun p => p.1 = tid)).map (·.2)

/-- In-place update of one entry of the task map (Python mutates the task
object stored in the dict; insertion order is unchanged). -/
def updateTask (s : TMState) (tid : Nat) (f : CollaborativeTask → CollaborativeTask) :
    TMState :=
  { s with tasks := s.tasks.map (fun p => if p.1 = tid then (p.1, f p.2) else p) }

/-- The per-dependency test of `TaskManager._is_task_blocked`: a
dependency id fails to resolve to a `COMPLETED` task. -/
def depUnresolved (s : TMState) (d : Nat) : Bool :=
  match lookupTask s d with
  | some dt => decide (dt.status ≠ TaskStatus.COMPLETED)
  | none => true

/-- `TaskManager._is_task_blocked`: a task is blocked when some dependency
id is absent from the store or resolves to a task whose status is not
`COMPLETED`.  (In Python a `task_id` absent from `self.tasks` would raise
`KeyError`; the function is only ever called on queued ids, which are in
the store, and we totalise that unreachable case to `false`.) -/
def isTaskBlocked (s : TMState) (tid : Nat) : Bool :=
  match lookupTask s tid with
  | some t => t.dependencies.any (depUnresolved s)
  | none => false

/-- Sort key of `self.task_queue.sort(key=lambda tid: self.tasks[tid].priority)`.
A queued id always resolves (invariant `TMInv.queueMem`); the `0` default
totalises the unreachable missing case. -/
def getPriority (s : TMState) (tid : Nat) : Nat :=
  match lookupTask s tid with
  | some t => t.priority
  | none => 0

/-- The comparison used to sort the queue: ascending task priority.
Python `list.sort` is stable, so a stable insertion sort by this key is
extensionally the same function. -/
def priorityLE (s : TMState) (a b : Nat) : Prop :=
  getPriority s a ≤ getPriority s b

instance (s : TMState) : DecidableRel (priorityLE s) :=
  fun a b => inferInstanceAs (Decidable (getPriority s a ≤ getPriority s b))

instance (s : TMState) : IsTotal Nat (priorityLE s) :=
  ⟨fun a b => Nat.le_total (getPriority s a) (getPriority s b)⟩

instance (s : TMState) : IsTrans Nat (priorityLE s) :=
  ⟨fun _ _ _ hab hbc => Nat.le_trans hab hbc⟩

/-- The body of `task.status = TaskStatus.BLOCKED` inside
`get_next_task`: mark a task `BLOCKED` (touching `updated_at`) only if
its status actually changes. -/
def markBlocked (s : TMState) (tid : Nat) (now : Nat) : TMState :=
  match lookupTask s tid with
  | some t =>
      if t.status ≠ TaskStatus.BLOCKED then
        updateTask s tid (fun t => { t with status := TaskStatus.BLOCKED, updatedAt := now })
      else s
  | none => s

/-- The scan loop of `get_next_task`: walk the (already sorted) queue
copy; blocked candidates are marked `BLOCKED` and skipped, the first
non-blocked candidate is returned together with the current state. -/
def scanQueue (now : Nat) : List Nat → TMState → Option (Nat × CollaborativeTask) × TMState
  | [], s => (none, s)
  | tid :: rest, s =>
      if isTaskBlocked s tid then
        scanQueue now rest (markBlocked s tid now)
      else
        ((lookupTask s tid).map (fun t => (tid, t)), s)

/-- `TaskManager.get_next_task`: on an empty queue return `None`;
otherwise sort the queue in place by ascending priority (stably) and scan
it for the first candidate whose dependencies are all met. -/
def getNextTask (now : Nat) (s : TMState) : Option (Nat × CollaborativeTask) × TMState :=
  if s.taskQueue.isEmpty then (none, s)
  else
    let sorted := List.insertionSort (priorityLE s) s.taskQueue
    scanQueue now sorted { s with taskQueue := sorted }

/-- The `task_assignment_rules` dict of `TaskManager.auto_assign_tasks`
(`dict.get` semantics, hence the `Option`; the table is total). -/
def taskAssignmentRules : TaskType → Option ModelRole
  | .PLANNING => some .PLANNER
  | .ARCHITECTURE => some .PLANNER
  | .CODE_REVIEW => some .REVIEWER
  | .CODE_IMPLEMENTATION => some .IMPLEMENTER
  | .DOCUMENTATION => some .DOCS
  | .REFACTORING => some .IMPLEMENTER
  | .TESTING => some .IMPLEMENTER
  | .MAINTENANCE => some .IMPLEMENTER
  | .REPOSITORY_HYGIENE => some .DOCS

/-- One operation of the `TaskManager` interface named by the claims;
each mutating call carries the `datetime.now()` reading it makes. -/
inductive TMOp where
  | create (tt : TaskType) (desc : String) (prio : Nat) (deps : List Nat) (now : Nat)
  | assign (tid : Nat) (role : ModelRole) (now : Nat)
  | complete (tid : Nat) (now : Nat)
  | setDeps (tid : Nat) (deps : List Nat) (now : Nat)
  | getNext (now : Nat)
  | autoAssign (now : Nat)
deriving DecidableEq, Repr

/-- State transition of one `TaskManager` operation.  `assign_task`,
`complete_task` and `set_task_dependencies` raise `ValueError` on an
unknown id before mutating anything, so those calls leave the state
unchanged. -/
def applyOp (s : TMState) : TMOp → TMState
  | .create tt desc prio deps now =>
      let tid := s.nextId
      { s with
        tasks := s.tasks ++ [(tid,
          { taskType := tt, description := desc, priority := prio,
            status := TaskStatus.PENDING, assignedTo := none,
            createdAt := now, updatedAt := now, dependencies := deps })],
        taskQueue := s.taskQueue ++ [tid],
        nextId := tid + 1 }
  | .assign tid role now =>
      if (lookupTask s tid).isSome then
        updateTask s tid (fun t =>
          { t with assignedTo := some role, status := TaskStatus.ASSIGNED, updatedAt := now })
      else s
  | .complete tid now =>
      if (lookupTask s tid).isSome then
        let s1 := updateTask s tid (fun t =>
          { t with status := TaskStatus.COMPLETED, updatedAt := now })
        { s1 with
          taskQueue := s1.taskQueue.erase tid,
          completedTasks := s1.completedTasks ++ [tid] }
      else s
  | .setDeps tid deps now =>
      if (lookupTask s tid).isSome then
        updateTask s tid (fun t => { t with dependencies := deps, updatedAt := now })
      else s
  | .getNext now => (getNextTask now s).2
  | .autoAssign now =>
      { s with
        tasks := s.tasks.map (fun p =>
          if p.2.status = TaskStatus.PENDING ∧ p.1 ∈ s.taskQueue then
            match taskAssignmentRules p.2.taskType with
            | some role => (p.1,
                { p.2 with
                  assignedTo := some role
                  status := TaskStatus.ASSIGNED
                  updatedAt := now })
            | none => p
          else p) }

/-- Run a sequence of `TaskManager` operations from a given state. -/
def runOps (s : TMState) (ops : List TMOp) : TMState :=
  ops.foldl applyOp s

/-- States reachable from a fresh `TaskManager` by the operations the
invariant claims quantify over. -/
inductive Reachable : TMState → Prop where
  | init : Reachable TMState.init
  | step {s : TMState} (op : TMOp) : Reachable s → Reachable (applyOp s op)

/-- Structural invariant of reachable `TaskManager` states: ids are below
the fresh-id counter, the store's keys are distinct, every queued id
resolves in the store, queued tasks are never `COMPLETED` (completion
removes them from the queue), and equal-priority queued ids appear in
creation order (ids are drawn from an increasing counter, so id order is
creation order). -/
def TMInv (s : TMState) : Prop :=
  (∀ p ∈ s.tasks, p.1 < s.nextId)
  ∧ (s.tasks.map Prod.fst).Nodup
  ∧ (∀ tid ∈ s.taskQueue, (lookupTask s tid).isSome)
  ∧ (∀ tid ∈ s.taskQueue, ∀ t, lookupTask s tid = some t →
      t.status ≠ TaskStatus.COMPLETED)
  ∧ s.taskQueue.Pairwise (fun a b => getPriority s a = getPriority s b → a < b)

/-! ## `collaborative_router.py` -/

/-- `MAX_CONSECUTIVE_OOM = 3`. -/
def MAX_CONSECUTIVE_OOM : Nat := 3

/-- `DEFAULT_MAX_ATTEMPTS = 3`. -/
def DEFAULT_MAX_ATTEMPTS : Nat := 3

/-- `RETRY_DELAY_CAP = 30.0` (seconds; the involved floats are exact, so
rationals model them faithfully). -/
def RETRY_DELAY_CAP : ℚ := 30

/-- `RETRY_DELAY_BASE = 2.0`. -/
def RETRY_DELAY_BASE : ℚ := 2

/-- `RETRY_AFTER_BUSY = 2.0`. -/
def RETRY_AFTER_BUSY : ℚ := 2

/-- Lower-case an ASCII string, as Python `str.lower` does on the error
texts involved. -/
def lowerStr (s : String) : String := ⟨s.data.map Char.toLower⟩

/-- Python `needle in haystack` on strings: contiguous-substring test. -/
def listIsSub (needle : List Char) : List Char → Bool
  | [] => needle.isEmpty
  | h :: t => needle.isPrefixOf (h :: t) || listIsSub needle t

/-- The `oom_indicators` list of `CollaborativeRouter._detect_oom_error`. -/
def oomIndicators : List String :=
  ["out of memory", "oom", "memory limit", "memory exhausted",
   "insufficient memory", "cannot allocate memory", "memory error",
   "resource exhausted", "gpu out of memory", "cuda out of memory",
   "tensor allocation failed", "runtime out of memory"]

/-- `CollaborativeRouter._detect_oom_error`: case-insensitive substring
match of the error text against the fixed OOM phrase list. -/
def detectOomError (e : String) : Bool :=
  oomIndicators.any (fun ind => listIsSub ind.data (lowerStr e).data)

/-- One recorded execution attempt (`@dataclass TaskAttempt`). -/
structure TaskAttempt where
  attemptId : Nat
  timestamp : Nat
  modelUsed : String
  success : Bool
  error : Option String
  oomDetected : Bool
deriving DecidableEq, Repr

/-- A routed task (`@dataclass RoutingTask`); the id is the key of the
router's task map. -/
structure RoutingTask where
  taskId : Nat
  originalPrompt : String
  taskType : TaskType
  priority : Nat
  maxAttempts : Nat
  attempts : List TaskAttempt
  currentAttempt : Nat
  fallbackToDevstral : Bool
  createdAt : Nat
  updatedAt : Nat
  lockedBy : Option Nat
deriving DecidableEq, Repr

/-- Decoded content of `memory_pressure_cooldown.json`. -/
structure CooldownData where
  memoryPressure : Bool
  lastOom : Nat
  consecutiveOomCount : Nat
  cooldownUntil : Nat
deriving DecidableEq, Repr

/-- The state of a `CollaborativeRouter` process: its task map, the
in-memory pressure tracking fields, the on-disk cooldown file (`none`
when the file does not exist) and a fresh-id counter standing in for
`uuid4`. -/
structure RouterState where
  tasks : List (Nat × RoutingTask)
  systemUnderMemoryPressure : Bool
  lastOomTime : Option Nat
  consecutiveOomCount : Nat
  cooldownFile : Option CooldownData
  nextId : Nat
deriving DecidableEq, Repr

/-- A freshly constructed router with nothing persisted. -/
def RouterState.init : RouterState := ⟨[], false, none, 0, none, 0⟩

/-- Dictionary lookup `self.tasks.get(task_id)`. -/
def lookupRTask (s : RouterState) (tid : Nat) : Option RoutingTask :=
  (s.tasks.find? (fun p => p.1 = tid)).map (·.2)

/-- In-place mutation of the task object stored under `tid`. -/
def updateRTask (s : RouterState) (tid : Nat) (f : RoutingTask → RoutingTask) :
    RouterState :=
  { s with tasks := s.tasks.map (fun p => if p.1 = tid then (p.1, f p.2) else p) }

/-- Environment inputs consumed by one `route_task` call: the clock
reading, the `uuid4` draw for the attempt id, Ollama availability, the
outcome of `_acquire_system_lock`, and the text returned by
`query_model` for the local attempt. -/
structure RouterEnv where
  now : Nat
  attemptId : Nat
  ollamaAvailable : Bool
  lockAcquired : Bool
  resultText : String
deriving DecidableEq, Repr

/-- `CollaborativeRouter._set_memory_pressure_cooldown`: write the
cooldown file with `cooldown_until = now + 15 minutes` (900 seconds). -/
def setMemoryPressureCooldown (now : Nat) (s : RouterState) : RouterState :=
  let cd : CooldownData :=
    { memoryPressure := true
      lastOom := now
      consecutiveOomCount := s.consecutiveOomCount
      cooldownUntil := now + 900 }
  { s with cooldownFile := some cd }

/-- `CollaborativeRouter._handle_oom_error`: flag the task for fallback,
set the pressure flag, bump the consecutive-OOM counter, and once the
counter reaches `MAX_CONSECUTIVE_OOM` write the cooldown file.  On an
unknown id the handler returns without doing anything. -/
def handleOomError (tid : Nat) (now : Nat) (s : RouterState) : RouterState :=
  match lookupRTask s tid with
  | none => s
  | some _ =>
      let s1 : RouterState :=
        { s with
          systemUnderMemoryPressure := true
          lastOomTime := some now
          consecutiveOomCount := s.consecutiveOomCount + 1 }
      let s2 := updateRTask s1 tid (fun t =>
        { t with fallbackToDevstral := true, updatedAt := now })
      if s2.consecutiveOomCount ≥ MAX_CONSECUTIVE_OOM then
        setMemoryPressureCooldown now s2
      else s2

/-- `CollaborativeRouter._check_memory_pressure_cooldown`: no file means
no cooldown; an expired file is deleted and the in-memory pressure state
reset; an active file re-establishes the in-memory pressure state. -/
def checkMemoryPressureCooldown (now : Nat) (s : RouterState) : Bool × RouterState :=
  match s.cooldownFile with
  | none => (false, s)
  | some cd =>
      if now > cd.cooldownUntil then
        (false, { s with
          cooldownFile := none
          systemUnderMemoryPressure := false
          consecutiveOomCount := 0 })
      else
        (true, { s with
          systemUnderMemoryPressure := true
          consecutiveOomCount := cd.consecutiveOomCount })

/-- The `local_model_task_types` set of
`CollaborativeRouter._should_use_local_model`. -/
def isLocalModelTaskType : TaskType → Bool
  | .CODE_IMPLEMENTATION => true
  | .DOCUMENTATION => true
  | .REFACTORING => true
  | .TESTING => true
  | .MAINTENANCE => true
  | .REPOSITORY_HYGIENE => true
  | _ => false

/-- `CollaborativeRouter._should_use_local_model` (the cooldown check it
performs can mutate the cooldown file and the in-memory pressure state,
hence the returned state). -/
def shouldUseLocalModel (env : RouterEnv) (tt : TaskType) (s : RouterState) :
    Bool × RouterState :=
  let p := checkMemoryPressureCooldown env.now s
  if p.1 then (false, p.2)
  else if !env.ollamaAvailable then (false, p.2)
  else (isLocalModelTaskType tt, p.2)

/-- `CollaborativeRouter._get_retry_delay`: `min(2.0 ** (n - 1), 30.0)`.
The argument is an integer as in Python, so the exponent is a `zpow`. -/
def getRetryDelay (attemptNumber : ℤ) : ℚ :=
  min (RETRY_DELAY_BASE ^ (attemptNumber - 1)) RETRY_DELAY_CAP

/-- `CollaborativeRouter._get_local_model_name`. -/
def getLocalModelName : TaskType → String
  | .CODE_REVIEW => "qwq:latest"
  | .DOCUMENTATION => "llama3.2:latest"
  | _ => "deepseek-coder-v2:latest"

/-- The result dictionary of a routing call; absent dictionary keys are
`none`. -/
structure RouteResult where
  success : Bool
  modelUsed : Option String := none
  result : Option String := none
  error : Option String := none
  oomDetected : Option Bool := none
  attemptId : Option Nat := none
  retryAfter : Option ℚ := none
  fallback : Option Bool := none
deriving DecidableEq, Repr

/-- `CollaborativeRouter._route_to_devstral`: record an always-successful
`Devstral-2` attempt on the task and return the fixed fallback success
dictionary. -/
def routeToDevstral (env : RouterEnv) (tid : Nat) (s : RouterState) :
    RouteResult × RouterState :=
  let attempt : TaskAttempt :=
    { attemptId := env.attemptId
      timestamp := env.now
      modelUsed := "Devstral-2"
      success := true
      error := none
      oomDetected := false }
  let s1 := updateRTask s tid (fun t =>
    { t with attempts := t.attempts ++ [attempt], updatedAt := env.now })
  ({ success := true
     modelUsed := some "Devstral-2"
     result := some "Task executed using Devstral-2 (fallback)"
     attemptId := some env.attemptId
     fallback := some true }, s1)

/-- The raised-exception analysis of the `try` block of
`CollaborativeRouter._route_to_local_model`: its three raise sites are
Ollama unavailability, an `Error:`-prefixed coordinator result
(`startswith` is a character-list prefix test), and an OOM phrase in an
otherwise successful-looking response; `none` means the attempt
succeeded with `env.resultText`. -/
def localAttemptError (env : RouterEnv) : Option String :=
  if !env.ollamaAvailable then
    some "Ollama not available for local model execution"
  else if "Error:".data.isPrefixOf env.resultText.data then
    some env.resultText
  else if detectOomError env.resultText then
    some ("OOM detected in model response: " ++ env.resultText)
  else none

/-- `CollaborativeRouter._route_to_local_model`.  Prompt construction is
elided because the response text is an environment input.  The `none`
branch of the lookup is unreachable from `route_task`, which only calls
this on a task taken from the map. -/
def routeToLocalModel (env : RouterEnv) (tid : Nat) (s : RouterState) :
    RouteResult × RouterState :=
  match lookupRTask s tid with
  | none => ({ success := false, error := some "Task not found" }, s)
  | some t =>
      let modelName := getLocalModelName t.taskType
      match localAttemptError env with
      | none =>
          let attempt : TaskAttempt :=
            { attemptId := env.attemptId
              timestamp := env.now
              modelUsed := modelName
              success := true
              error := none
              oomDetected := false }
          let s1 := updateRTask s tid (fun u =>
            { u with
              attempts := u.attempts ++ [attempt]
              currentAttempt := u.currentAttempt + 1
              updatedAt := env.now })
          ({ success := true
             modelUsed := some modelName
             result := some env.resultText
             attemptId := some env.attemptId }, s1)
      | some e =>
          let oom := detectOomError e
          let attempt : TaskAttempt :=
            { attemptId := env.attemptId
              timestamp := env.now
              modelUsed := modelName
              success := false
              error := some e
              oomDetected := oom }
          let s1 := if oom then handleOomError tid env.now s else s
          let s2 := updateRTask s1 tid (fun u =>
            let u1 : RoutingTask :=
              { u with
                attempts := u.attempts ++ [attempt]
                currentAttempt := u.currentAttempt + 1
                updatedAt := env.now }
            if oom ∨ u1.currentAttempt ≥ u1.maxAttempts then
              { u1 with fallbackToDevstral := true }
            else u1)
          -- `_handle_oom_error` touches neither `current_attempt` nor
          -- `max_attempts`, so the post-increment reads below can use `t`.
          let newCur := t.currentAttempt + 1
          let maxAtt := t.maxAttempts
          ({ success := false
             error := some e
             oomDetected := some oom
             attemptId := some env.attemptId
             retryAfter :=
               if oom ∨ newCur ≥ maxAtt then none
               else some (getRetryDelay (newCur : ℤ)) }, s2)

/-- `CollaborativeRouter.route_task`: unknown id → error result; a
flagged task or one that should not use a local model → fallback route;
lock-acquisition failure → immediate fallback under memory pressure,
otherwise a busy result with a retry delay; otherwise a local attempt. -/
def routeTask (env : RouterEnv) (tid : Nat) (s : RouterState) :
    RouteResult × RouterState :=
  match lookupRTask s tid with
  | none => ({ success := false, error := some "Task not found" }, s)
  | some task =>
      let p := shouldUseLocalModel env task.taskType s
      if task.fallbackToDevstral || !p.1 then routeToDevstral env tid p.2
      else if !env.lockAcquired then
        if p.2.systemUnderMemoryPressure then
          routeToDevstral env tid
            (updateRTask p.2 tid (fun u => { u with fallbackToDevstral := true }))
        else
          ({ success := false
             error := some "System busy, please wait and retry"
             retryAfter := some RETRY_AFTER_BUSY }, p.2)
      else routeToLocalModel env tid p.2

/-- `CollaborativeRouter.create_routing_task` (the `uuid4` id is a fresh
natural drawn from the counter). -/
def createRoutingTask (prompt : String) (tt : TaskType) (prio : Nat) (now : Nat)
    (s : RouterState) : Nat × RouterState :=
  let tid := s.nextId
  (tid, { s with
    tasks := s.tasks ++ [(tid,
      { taskId := tid
        originalPrompt := prompt
        taskType := tt
        priority := prio
        maxAttempts := DEFAULT_MAX_ATTEMPTS
        attempts := []
        currentAttempt := 0
        fallbackToDevstral := false
        createdAt := now
        updatedAt := now
        lockedBy := none })]
    nextId := tid + 1 })

/-- One router operation, for stating flag-persistence properties. -/
inductive RouterOp where
  | createTask (prompt : String) (tt : TaskType) (prio : Nat) (now : Nat)
  | route (env : RouterEnv) (tid : Nat)
deriving DecidableEq, Repr

/-- State transition of one router operation. -/
def applyRouterOp (s : RouterState) : RouterOp → RouterState
  | .createTask prompt tt prio now => (createRoutingTask prompt tt prio now s).2
  | .route env tid => (routeTask env tid s).2

/-! ## `model_coordinator.py` -/

/-- Configuration of one model endpoint (`class ModelConfig`). -/
structure ModelConfig where
  modelName : String
  endpoint : String
  apiKey : Option String
deriving DecidableEq, Repr

/-- Python `str(role)` for a `ModelRole` enum member, used in the error
texts of `query_model`. -/
def ModelRole.pyStr : ModelRole → String
  | .PLANNER => "ModelRole.PLANNER"
  | .IMPLEMENTER => "ModelRole.IMPLEMENTER"
  | .REVIEWER => "ModelRole.REVIEWER"
  | .DOCS => "ModelRole.DOCS"

/-- Outcome of the HTTP transaction inside `query_model`.  `success`
carries the already-extracted response text (the endpoint-string sniffing
only selects which JSON field is read — `response` for "ollama"
endpoints, `choices[0].message.content` otherwise — which collapses once
the body is modelled by its extracted text); `failure` covers both a
non-2xx status (`raise_for_status`) and a transport error, i.e. every
`requests.RequestException`, with its message. -/
inductive HttpResult where
  | success (content : String)
  | failure (errMsg : String)
deriving DecidableEq, Repr

/-- `ModelCoordinator.query_model`.  `Except.error` models a raised
exception (the `ValueError` for an unconfigured role); note that an HTTP
failure is caught and turned into an `Error:`-prefixed *return value*,
not a raise. -/
def queryModel (models : List (ModelRole × ModelConfig)) (role : ModelRole)
    (_prompt : String) (http : HttpResult) : Except String String :=
  match models.find? (fun p => p.1 = role) with
  | none => Except.error ("No model configured for role: " ++ role.pyStr)
  | some _ =>
      match http with
      | .success content => Except.ok content
      | .failure e =>
          Except.ok ("Error: Could not query " ++ role.value ++ " model - " ++ e)

/-! ## `middleware.py` -/

/-- `class MiddlewareAction(StrEnum)`. -/
inductive MiddlewareAction where
  | CONTINUE
  | STOP
  | COMPACT
  | INJECT_MESSAGE
deriving DecidableEq, Repr

/-- `@dataclass MiddlewareResult` (the `metadata` map carries opaque
auxiliary values never read by the pipeline logic and is omitted). -/
structure MiddlewareResult where
  action : MiddlewareAction := MiddlewareAction.CONTINUE
  message : Option String := none
  reason : Option String := none
deriving DecidableEq, Repr

/-- Python truthiness of `result.message`: both `None` and the empty
string are falsy. -/
def truthyMsg : Option String → Bool
  | none => false
  | some m => m ≠ ""

/-- The loop of `MiddlewarePipeline.run_before_turn`, with the
accumulated `messages_to_inject` list.  Each middleware's `before_turn`
return value appears in registration order. -/
def runBeforeTurnAux : List MiddlewareResult → List String → MiddlewareResult
  | [], acc =>
      if acc.isEmpty then {}
      else { action := MiddlewareAction.INJECT_MESSAGE
             message := some (String.intercalate "\n\n" acc) }
  | r :: rest, acc =>
      if r.action = MiddlewareAction.INJECT_MESSAGE ∧ truthyMsg r.message then
        runBeforeTurnAux rest (acc ++ [r.message.getD ""])
      else if r.action = MiddlewareAction.STOP ∨ r.action = MiddlewareAction.COMPACT then
        r
      else runBeforeTurnAux rest acc

/-- `MiddlewarePipeline.run_before_turn`, applied to the sequence of
results the registered policies return for this context. -/
def runBeforeTurn (results : List MiddlewareResult) : MiddlewareResult :=
  runBeforeTurnAux results []

/-- `MiddlewarePipeline.run_after_turn`: each entry pairs the middleware
class name with its `after_turn` result; an `INJECT_MESSAGE` result
raises `ValueError` (modelled by `Except.error`). -/
def runAfterTurn : List (String × MiddlewareResult) → Except String MiddlewareResult
  | [] => Except.ok {}
  | (name, r) :: rest =>
      if r.action = MiddlewareAction.INJECT_MESSAGE then
        Except.error ("INJECT_MESSAGE not allowed in after_turn (from " ++ name ++ ")")
      else if r.action = MiddlewareAction.STOP ∨ r.action = MiddlewareAction.COMPACT then
        Except.ok r
      else runAfterTurn rest

/-- Spec-side description of the messages `run_before_turn` accumulates:
the messages of the `INJECT_MESSAGE` results that carry a (truthy)
message, in registration order.  Defined from the spec's words for the
refinement statement about the pipeline; the pipeline itself is
`runBeforeTurn`, translated from the source. -/
def specAccumulatedMessages (results : List MiddlewareResult) : List String :=
  results.filterMap (fun r =>
    if r.action = MiddlewareAction.INJECT_MESSAGE ∧ truthyMsg r.message then
      some (r.message.getD "")
    else none)

/-- `LOOP_WINDOW_SIZE = 10`. -/
def LOOP_WINDOW_SIZE : Nat := 10

/-- `LOOP_REPETITION_THRESHOLD = 5`. -/
def LOOP_REPETITION_THRESHOLD : Nat := 5

/-- `STRICT_REPETITION_THRESHOLD = 75`. -/
def STRICT_REPETITION_THRESHOLD : Nat := 75

/-- Modelled from the spec: `VIBE_WARNING_TAG` lives in
`vibe/core/utils.py`, which is not among the given sources; no claim
depends on its value, only on the warning text being built around it. -/
def VIBE_WARNING_TAG : String := "vibe_warning"

/-- State of a `LoopDetectionMiddleware` instance.  The Python
`_repetition_counts` dict always holds at most one key (any new output
resets it to a singleton), so it is an optional pair here. -/
structure LoopState where
  recentToolCalls : List String
  recentLlmResponses : List String
  repetitionCounts : Option (String × Nat)
  pendingWarning : Option String
deriving DecidableEq, Repr

/-- A freshly constructed loop detector. -/
def LoopState.init : LoopState := ⟨[], [], none, none⟩

/-- `deque(maxlen=cap).append`: keep the `cap` newest entries. -/
def dequeAppend (cap : Nat) (l : List String) (x : String) : List String :=
  let l1 := l ++ [x]
  l1.drop (l1.length - cap)

/-- The window scan of `LoopDetectionMiddleware._check_for_repetition`:
does the list contain `LOOP_REPETITION_THRESHOLD` (= 5) consecutive
identical entries? -/
def checkForRepetition : List String → Bool
  | a :: b :: c :: d :: e :: rest =>
      (decide (b = a) && decide (c = a) && decide (d = a) && decide (e = a))
        || checkForRepetition (b :: c :: d :: e :: rest)
  | _ => false

/-- `LoopDetectionMiddleware._detect_loop`. -/
def detectLoop (s : LoopState) : Bool × String :=
  if s.recentLlmResponses.length ≥ LOOP_REPETITION_THRESHOLD
      ∧ checkForRepetition s.recentLlmResponses then
    (true, "repetitive LLM responses")
  else if s.recentToolCalls.length ≥ LOOP_REPETITION_THRESHOLD
      ∧ checkForRepetition s.recentToolCalls then
    (true, "repetitive tool calls")
  else (false, "")

/-- The warning text queued by `after_turn` when a loop is detected. -/
def loopWarningMessage (reason : String) : String :=
  "<" ++ VIBE_WARNING_TAG ++ ">Loop detected (" ++ reason ++
    ")! Please analyze your recent actions and adjust your strategy to avoid repetition.</"
    ++ VIBE_WARNING_TAG ++ ">"

/-- The `reason` of the strict-repetition STOP result. -/
def strictRepetitionReason : String :=
  "Strict repetition threshold reached (75x same output)."

/-- `LoopDetectionMiddleware.before_turn`: deliver (and clear) a pending
warning as an `INJECT_MESSAGE`; otherwise continue. -/
def loopBeforeTurn (s : LoopState) : MiddlewareResult × LoopState :=
  match s.pendingWarning with
  | some w =>
      ({ action := MiddlewareAction.INJECT_MESSAGE, message := some w },
       { s with pendingWarning := none })
  | none => ({}, s)

/-- The strict-repetition bookkeeping of `after_turn`: bump the counter
of the turn's exact combined output, or reset the dict to a singleton
when a different output appears. -/
def loopCountRepetition (totalOutput : String) (s : LoopState) : LoopState :=
  match s.repetitionCounts with
  | some (o, n) =>
      if o = totalOutput then { s with repetitionCounts := some (o, n + 1) }
      else { s with repetitionCounts := some (totalOutput, 1) }
  | none => { s with repetitionCounts := some (totalOutput, 1) }

/-- The sliding-window updates of `after_turn`: append the non-empty
response text and the joined tool-call signatures to their bounded
deques. -/
def loopUpdateWindows (resp : String) (toolCalls : List String) (s : LoopState) :
    LoopState :=
  { s with
    recentLlmResponses :=
      if resp ≠ "" then dequeAppend LOOP_WINDOW_SIZE s.recentLlmResponses resp
      else s.recentLlmResponses
    recentToolCalls :=
      if toolCalls ≠ [] then
        dequeAppend LOOP_WINDOW_SIZE s.recentToolCalls
          (String.intercalate "|" toolCalls)
      else s.recentToolCalls }

/-- The warning bookkeeping of `after_turn`: queue the one-shot warning
for the next turn when a loop is detected, clear it otherwise. -/
def loopSetWarning (s : LoopState) : LoopState :=
  { s with pendingWarning :=
      if (detectLoop s).1 then some (loopWarningMessage (detectLoop s).2) else none }

/-- The `total_output` of a turn: concatenated assistant text followed by
the `"|"`-joined tool-call signatures. -/
def loopTotalOutput (resp : String) (toolCalls : List String) : String :=
  resp ++ String.intercalate "|" toolCalls

/-- The loop state after the strict-repetition bookkeeping of
`after_turn` (a no-op for an empty total output). -/
def loopCounted (resp : String) (toolCalls : List String) (s : LoopState) : LoopState :=
  if loopTotalOutput resp toolCalls ≠ "" then
    loopCountRepetition (loopTotalOutput resp toolCalls) s
  else s

/-- `LoopDetectionMiddleware.after_turn`, taking the turn's concatenated
assistant-response text and its list of tool-call signatures (the
`name:jsonArgs` strings) already extracted from the turn messages. -/
def loopAfterTurn (resp : String) (toolCalls : List String) (s : LoopState) :
    MiddlewareResult × LoopState :=
  if loopTotalOutput resp toolCalls ≠ "" ∧
      (((loopCounted resp toolCalls s).repetitionCounts.map (·.2)).getD 0
        ≥ STRICT_REPETITION_THRESHOLD) then
    ({ action := MiddlewareAction.STOP, reason := some strictRepetitionReason },
     loopCounted resp toolCalls s)
  else
    ({}, loopSetWarning (loopUpdateWindows resp toolCalls (loopCounted resp toolCalls s)))

/-! ## Helper lemmas -/

theorem find?_keyed_map (l : List (Nat × α)) (tid : Nat) (f : α → α) :
    (l.map (fun p => if p.1 = tid then (p.1, f p.2) else p)).find? (fun p => p.1 = tid)
      = (l.find? (fun p => p.1 = tid)).map (fun p => (p.1, f p.2)) := by
  induction l with
  | nil => rfl
  | cons p t ih =>
      by_cases h : p.1 = tid
      · simp only [List.map_cons, if_pos h]
        rw [List.find?_cons_of_pos _ (by simp [h]), List.find?_cons_of_pos _ (by simp [h])]
        rfl
      · simp only [List.map_cons, if_neg h]
        rw [List.find?_cons_of_neg _ (by simp [h]), List.find?_cons_of_neg _ (by simp [h])]
        exact ih

theorem find?_keyed_map_ne (l : List (Nat × α)) (tid d : Nat) (f : α → α)
    (hne : d ≠ tid) :
    (l.map (fun p => if p.1 = tid then (p.1, f p.2) else p)).find? (fun p => p.1 = d)
      = l.find? (fun p => p.1 = d) := by
  induction l with
  | nil => rfl
  | cons p t ih =>
      have hkey : ((if p.1 = tid then (p.1, f p.2) else p) : Nat × α).1 = p.1 := by
        split <;> rfl
      by_cases hd : p.1 = d
      · have htid : ¬ p.1 = tid := fun hh => hne (hd.symm.trans hh)
        simp only [List.map_cons, if_neg htid]
        rw [List.find?_cons_of_pos _ (by simp [hd]), List.find?_cons_of_pos _ (by simp [hd])]
      · simp only [List.map_cons]
        rw [List.find?_cons_of_neg _ (by simp [hkey, hd]),
          List.find?_cons_of_neg _ (by simp [hd])]
        exact ih

theorem lookupRTask_updateRTask_self (s : RouterState) (tid : Nat)
    (f : RoutingTask → RoutingTask) :
    lookupRTask (updateRTask s tid f) tid = (lookupRTask s tid).map f := by
  unfold lookupRTask updateRTask
  simp only [find?_keyed_map]
  cases s.tasks.find? (fun p => p.1 = tid) <;> rfl

theorem lookupRTask_updateRTask_ne (s : RouterState) (tid d : Nat)
    (f : RoutingTask → RoutingTask) (hne : d ≠ tid) :
    lookupRTask (updateRTask s tid f) d = lookupRTask s d := by
  unfold lookupRTask updateRTask
  simp only [find?_keyed_map_ne _ _ _ _ hne]

theorem tasks_checkMemoryPressureCooldown (now : Nat) (s : RouterState) :
    ((checkMemoryPressureCooldown now s).2).tasks = s.tasks := by
  unfold checkMemoryPressureCooldown
  cases s.cooldownFile with
  | none => rfl
  | some cd => by_cases h : now > cd.cooldownUntil <;> simp [h]

theorem tasks_shouldUseLocalModel (env : RouterEnv) (tt : TaskType) (s : RouterState) :
    ((shouldUseLocalModel env tt s).2).tasks = s.tasks := by
  unfold shouldUseLocalModel
  by_cases h1 : (checkMemoryPressureCooldown env.now s).1
  · simp [h1, tasks_checkMemoryPressureCooldown]
  · by_cases h2 : env.ollamaAvailable <;>
      simp [h1, h2, tasks_checkMemoryPressureCooldown]

theorem lookupRTask_shouldUseLocalModel (env : RouterEnv) (tt : TaskType)
    (s : RouterState) (tid : Nat) :
    lookupRTask ((shouldUseLocalModel env tt s).2) tid = lookupRTask s tid := by
  unfold lookupRTask
  rw [tasks_shouldUseLocalModel]

theorem listIsSub_append_left (n l1 l2 : List Char) (h : listIsSub n l1 = true) :
    listIsSub n (l1 ++ l2) = true := by
  induction l1 with
  | nil =>
      simp only [listIsSub] at h
      have : n = [] := by
        cases n with
        | nil => rfl
        | cons a t => simp [List.isEmpty] at h
      subst this
      cases l2 with
      | nil => rfl
      | cons b t => simp [listIsSub, List.isPrefixOf]
  | cons a t ih =>
      simp only [listIsSub, Bool.or_eq_true] at h ⊢
      rcases h with h | h
      · left
        rw [List.isPrefixOf_iff_prefix] at h ⊢
        exact h.trans (List.prefix_append (a :: t) l2)
      · right
        exact ih h

theorem lowerStr_data_append (a b : String) :
    (lowerStr (a ++ b)).data = (lowerStr a).data ++ (lowerStr b).data := by
  simp [lowerStr, String.data_append]

theorem detectOomError_oom_prefixed (x : String) :
    detectOomError ("OOM detected in model response: " ++ x) = true := by
  unfold detectOomError
  rw [List.any_eq_true]
  refine ⟨"oom", by simp [oomIndicators], ?_⟩
  rw [lowerStr_data_append]
  exact listIsSub_append_left _ _ _ (by decide)

theorem lookupRTask_system_fields (s : RouterState) (b : Bool) (lo : Option Nat)
    (c : Nat) (cf : Option CooldownData) (n : Nat) (tid : Nat) :
    lookupRTask ⟨s.tasks, b, lo, c, cf, n⟩ tid = lookupRTask s tid := rfl

theorem lookupRTask_setMemoryPressureCooldown (now : Nat) (s : RouterState) (tid : Nat) :
    lookupRTask (setMemoryPressureCooldown now s) tid = lookupRTask s tid := rfl

theorem lookupRTask_handleOomError_self (tid now : Nat) (s : RouterState)
    (t : RoutingTask) (h : lookupRTask s tid = some t) :
    lookupRTask (handleOomError tid now s) tid
      = some { t with fallbackToDevstral := true, updatedAt := now } := by
  unfold handleOomError
  rw [h]
  simp only []
  split
  · rw [lookupRTask_setMemoryPressureCooldown, lookupRTask_updateRTask_self]
    rw [show lookupRTask ⟨s.tasks, true, some now, s.consecutiveOomCount + 1,
      s.cooldownFile, s.nextId⟩ tid = lookupRTask s tid from rfl, h]
    rfl
  · rw [lookupRTask_updateRTask_self]
    rw [show lookupRTask ⟨s.tasks, true, some now, s.consecutiveOomCount + 1,
      s.cooldownFile, s.nextId⟩ tid = lookupRTask s tid from rfl, h]
    rfl

theorem routeToLocalModel_success_eq (env : RouterEnv) (tid : Nat)
    (s : RouterState) (t : RoutingTask) (h : lookupRTask s tid = some t)
    (hE : localAttemptError env = none) :
    routeToLocalModel env tid s
      = (⟨true, some (getLocalModelName t.taskType), some env.resultText, none,
          none, some env.attemptId, none, none⟩,
         updateRTask s tid (fun u =>
           { u with
             attempts := u.attempts ++
               [⟨env.attemptId, env.now, getLocalModelName t.taskType, true, none, false⟩]
             currentAttempt := u.currentAttempt + 1
             updatedAt := env.now })) := by
  unfold routeToLocalModel
  rw [h, hE]

theorem routeToLocalModel_oom_eq (env : RouterEnv) (tid : Nat)
    (s : RouterState) (t : RoutingTask) (e : String) (h : lookupRTask s tid = some t)
    (hE : localAttemptError env = some e) (hOom : detectOomError e = true) :
    routeToLocalModel env tid s
      = (⟨false, none, none, some e, some true, some env.attemptId, none, none⟩,
         updateRTask (handleOomError tid env.now s) tid (fun u =>
           { u with
             attempts := u.attempts ++
               [⟨env.attemptId, env.now, getLocalModelName t.taskType, false, some e, true⟩]
             currentAttempt := u.currentAttempt + 1
             updatedAt := env.now
             fallbackToDevstral := true })) := by
  unfold routeToLocalModel
  rw [h, hE]
  simp only [hOom, ite_true, true_or]

theorem routeToLocalModel_failure_eq (env : RouterEnv) (tid : Nat)
    (s : RouterState) (t : RoutingTask) (e : String) (h : lookupRTask s tid = some t)
    (hE : localAttemptError env = some e) (hOom : detectOomError e = false) :
    routeToLocalModel env tid s
      = (⟨false, none, none, some e, some false, some env.attemptId,
          if t.currentAttempt + 1 ≥ t.maxAttempts then none
          else some (getRetryDelay ((t.currentAttempt + 1 : Nat) : ℤ)), none⟩,
         updateRTask s tid (fun u =>
           if u.currentAttempt + 1 ≥ u.maxAttempts then
             { u with
               attempts := u.attempts ++
                 [⟨env.attemptId, env.now, getLocalModelName t.taskType, false, some e, false⟩]
               currentAttempt := u.currentAttempt + 1
               updatedAt := env.now
               fallbackToDevstral := true }
           else
             { u with
               attempts := u.attempts ++
                 [⟨env.attemptId, env.now, getLocalModelName t.taskType, false, some e, false⟩]
               currentAttempt := u.currentAttempt + 1
               updatedAt := env.now })) := by
  unfold routeToLocalModel
  rw [h, hE]
  simp only [hOom, ite_false, false_or, Bool.false_eq_true]

theorem lookupRTask_append_of_found (s : RouterState) (tid : Nat) (t : RoutingTask)
    (q : List (Nat × RoutingTask)) (h : lookupRTask s tid = some t) :
    lookupRTask { s with tasks := s.tasks ++ q } tid = some t := by
  unfold lookupRTask at h ⊢
  rw [List.find?_append]
  cases hf : s.tasks.find? (fun p => p.1 = tid) with
  | none => rw [hf] at h; simp at h
  | some p => rw [hf] at h; simpa [Option.or] using h

theorem flag_after_update (s : RouterState) (tid d : Nat)
    (f : RoutingTask → RoutingTask) (t : RoutingTask)
    (h : lookupRTask s tid = some t) (ht : t.fallbackToDevstral = true)
    (hf : ∀ u : RoutingTask, u.fallbackToDevstral = true →
      (f u).fallbackToDevstral = true) :
    (lookupRTask (updateRTask s d f) tid).map (·.fallbackToDevstral) = some true := by
  by_cases hd : tid = d
  · subst hd
    rw [lookupRTask_updateRTask_self, h]
    simp [hf t ht]
  · rw [lookupRTask_updateRTask_ne _ _ _ _ hd, h]
    simp [ht]

theorem shouldUseLocalModel_env_eq (e1 e2 : RouterEnv) (tt : TaskType)
    (s : RouterState) (hn : e1.now = e2.now)
    (ha : e1.ollamaAvailable = e2.ollamaAvailable) :
    shouldUseLocalModel e1 tt s = shouldUseLocalModel e2 tt s := by
  unfold shouldUseLocalModel
  rw [hn, ha]

theorem routeToDevstral_env_eq (e1 e2 : RouterEnv) (tid : Nat) (s : RouterState)
    (hn : e1.now = e2.now) (hi : e1.attemptId = e2.attemptId) :
    routeToDevstral e1 tid s = routeToDevstral e2 tid s := by
  unfold routeToDevstral
  rw [hn, hi]

theorem routeTask_flagged_eq (env : RouterEnv) (tid : Nat) (s : RouterState)
    (t : RoutingTask) (h : lookupRTask s tid = some t)
    (hfb : t.fallbackToDevstral = true) :
    routeTask env tid s
      = routeToDevstral env tid (shouldUseLocalModel env t.taskType s).2 := by
  unfold routeTask
  rw [h]
  simp only [hfb, Bool.true_or, ite_true]

theorem flag_after_update_ex (s : RouterState) (d tid : Nat)
    (f : RoutingTask → RoutingTask) (t : RoutingTask)
    (h : lookupRTask s tid = some t) (ht : t.fallbackToDevstral = true)
    (hf : ∀ u : RoutingTask, u.fallbackToDevstral = true →
      (f u).fallbackToDevstral = true) :
    ∃ t', lookupRTask (updateRTask s d f) tid = some t'
      ∧ t'.fallbackToDevstral = true := by
  by_cases hd : tid = d
  · subst hd
    rw [lookupRTask_updateRTask_self, h]
    exact ⟨f t, rfl, hf t ht⟩
  · rw [lookupRTask_updateRTask_ne _ _ _ _ hd, h]
    exact ⟨t, rfl, ht⟩

theorem flag_after_update_map (s : RouterState) (d tid : Nat)
    (f : RoutingTask → RoutingTask) (t : RoutingTask)
    (h : lookupRTask s tid = some t) (ht : t.fallbackToDevstral = true)
    (hf : ∀ u : RoutingTask, u.fallbackToDevstral = true →
      (f u).fallbackToDevstral = true) :
    (lookupRTask (updateRTask s d f) tid).map (·.fallbackToDevstral) = some true := by
  obtain ⟨t', h', hfb'⟩ := flag_after_update_ex s d tid f t h ht hf
  rw [h']
  simp [hfb']

theorem flag_after_handleOom_ex (s : RouterState) (d now tid : Nat) (t : RoutingTask)
    (h : lookupRTask s tid = some t) (ht : t.fallbackToDevstral = true) :
    ∃ t', lookupRTask (handleOomError d now s) tid = some t'
      ∧ t'.fallbackToDevstral = true := by
  unfold handleOomError
  cases hd : lookupRTask s d with
  | none => exact ⟨t, h, ht⟩
  | some u =>
      simp only []
      split
      · rw [lookupRTask_setMemoryPressureCooldown]
        apply flag_after_update_ex
          ⟨s.tasks, true, some now, s.consecutiveOomCount + 1, s.cooldownFile, s.nextId⟩
          d tid _ t h ht
        intro u _
        rfl
      · apply flag_after_update_ex
          ⟨s.tasks, true, some now, s.consecutiveOomCount + 1, s.cooldownFile, s.nextId⟩
          d tid _ t h ht
        intro u _
        rfl

theorem routerOp_preserves_flag (s : RouterState) (tid : Nat) (t : RoutingTask)
    (op : RouterOp) (h : lookupRTask s tid = some t)
    (hfb : t.fallbackToDevstral = true) :
    (lookupRTask (applyRouterOp s op) tid).map (·.fallbackToDevstral) = some true := by
  cases op with
  | createTask prompt tt prio now =>
      have : lookupRTask (applyRouterOp s (.createTask prompt tt prio now)) tid
          = some t :=
        lookupRTask_append_of_found s tid t _ h
      rw [this]
      simp [hfb]
  | route env d =>
      show (lookupRTask (routeTask env d s).2 tid).map (·.fallbackToDevstral) = some true
      unfold routeTask
      cases hd : lookupRTask s d with
      | none =>
          rw [h]
          simp [hfb]
      | some task =>
          simp only []
          have hP : lookupRTask (shouldUseLocalModel env task.taskType s).2 tid
              = some t := by
            rw [lookupRTask_shouldUseLocalModel]
            exact h
          split
          · -- fallback / non-local: routeToDevstral
            unfold routeToDevstral
            apply flag_after_update_map _ d tid _ t hP hfb
            intro u hu
            exact hu
          · split
            · split
              · -- lock failed under pressure: flag then routeToDevstral
                unfold routeToDevstral
                obtain ⟨t1, h1, hfb1⟩ := flag_after_update_ex
                  (shouldUseLocalModel env task.taskType s).2 d tid
                  (fun u => { u with fallbackToDevstral := true }) t hP hfb
                  (fun u _ => rfl)
                apply flag_after_update_map _ d tid _ t1 h1 hfb1
                intro u hu
                exact hu
              · -- busy: state unchanged apart from the cooldown check
                rw [hP]
                simp [hfb]
            · -- local attempt
              have hPd : lookupRTask (shouldUseLocalModel env task.taskType s).2 d
                  = some task := by
                rw [lookupRTask_shouldUseLocalModel]
                exact hd
              cases hE : localAttemptError env with
              | none =>
                  rw [routeToLocalModel_success_eq env d _ task hPd hE]
                  apply flag_after_update_map _ d tid _ t hP hfb
                  intro u hu
                  exact hu
              | some e =>
                  by_cases hOom : detectOomError e = true
                  · rw [routeToLocalModel_oom_eq env d _ task e hPd hE hOom]
                    obtain ⟨t1, h1, hfb1⟩ :=
                      flag_after_handleOom_ex _ d env.now tid t hP hfb
                    apply flag_after_update_map _ d tid _ t1 h1 hfb1
                    intro u _
                    rfl
                  · have hOomF : detectOomError e = false := by simpa using hOom
                    rw [routeToLocalModel_failure_eq env d _ task e hPd hE hOomF]
                    apply flag_after_update_map _ d tid _ t hP hfb
                    intro u hu
                    by_cases hm : u.currentAttempt + 1 ≥ u.maxAttempts
                    · rw [if_pos hm]
                    · rw [if_neg hm]
                      exact hu

/-! ## Claim theorems -/

/-- C10: the retry-backoff delay for attempt number `n` equals
`min(2.0 ^ (n - 1), 30.0)` seconds, so `_get_retry_delay` applied to the
attempt numbers 1 through 6 yields exactly `[1, 2, 4, 8, 16, 30]`. -/
theorem getRetryDelay_first_six :
    ([1, 2, 3, 4, 5, 6] : List ℤ).map getRetryDelay = [1, 2, 4, 8, 16, 30] := by
  simp only [List.map, getRetryDelay, RETRY_DELAY_BASE, RETRY_DELAY_CAP]
  norm_num

/-- C3 counterexample: with the implementer role configured, an HTTP
transport failure makes `query_model` *return* (`Except.ok`) the
`Error:`-prefixed string — it does not raise the error to its caller as
the claim states. -/
theorem queryModel_failure_returns_ok :
    queryModel [(ModelRole.IMPLEMENTER,
      { modelName := "deepseek-coder-v2"
        endpoint := "http://localhost:11434/api/generate"
        apiKey := none })]
      ModelRole.IMPLEMENTER "implement the feature" (HttpResult.failure "Connection refused")
    = Except.ok "Error: Could not query deepseek-coder-v2 model - Connection refused" := by
  rfl

/-- C3 (amended): for every configured role, a non-success HTTP status or
transport failure makes `query_model` return — not raise — a non-empty
error string carrying the distinct prefix `Error:`, which the caller's
`startswith("Error:")` check and OOM-phrase scanning can inspect. -/
theorem queryModel_failure_prefixed (models : List (ModelRole × ModelConfig))
    (role : ModelRole) (prompt e : String) (cfg : ModelRole × ModelConfig)
    (h : models.find? (fun p => p.1 = role) = some cfg) :
    queryModel models role prompt (HttpResult.failure e)
      = Except.ok ("Error: Could not query " ++ role.value ++ " model - " ++ e)
    ∧ ("Error:".data).isPrefixOf
        ("Error: Could not query " ++ role.value ++ " model - " ++ e).data = true
    ∧ ("Error: Could not query " ++ role.value ++ " model - " ++ e) ≠ "" := by
  refine ⟨by simp [queryModel, h], ?_, ?_⟩
  · rw [List.isPrefixOf_iff_prefix]
    cases role <;>
      · show ("Error:".data) <+: (String.data _)
        simp only [String.data_append]
        exact (List.IsPrefix.trans (by decide) (List.prefix_append _ _))
  · intro hEq
    have := congrArg String.data hEq
    simp only [String.data_append] at this
    cases role <;> simp at this

/-- C3 witness. -/
theorem queryModel_failure_prefixed_witness :
    queryModel [(ModelRole.IMPLEMENTER,
      { modelName := "deepseek-coder-v2"
        endpoint := "http://localhost:11434/api/generate"
        apiKey := none })]
      ModelRole.IMPLEMENTER "p" (HttpResult.failure "read timed out")
      = Except.ok ("Error: Could not query " ++ ModelRole.IMPLEMENTER.value
          ++ " model - " ++ "read timed out")
    ∧ ("Error:".data).isPrefixOf
        ("Error: Could not query " ++ ModelRole.IMPLEMENTER.value
          ++ " model - " ++ "read timed out").data = true
    ∧ ("Error: Could not query " ++ ModelRole.IMPLEMENTER.value
          ++ " model - " ++ "read timed out") ≠ "" :=
  queryModel_failure_prefixed _ ModelRole.IMPLEMENTER "p" "read timed out" _ (by rfl)

/-- C6: once the consecutive-OOM counter reaches `MAX_CONSECUTIVE_OOM`
(= 3), handling an OOM sets `system_under_memory_pressure` and writes the
cooldown file with `cooldown_until` 15 minutes (900 s) past the write
time; and on any pressure check finding the stored `cooldown_until` in
the past, the file is deleted and the in-memory pressure flag and counter
are reset to clear. -/
theorem oom_cooldown_lifecycle :
    (∀ (tid now : Nat) (s : RouterState) (t : RoutingTask),
      lookupRTask s tid = some t →
      s.consecutiveOomCount + 1 ≥ MAX_CONSECUTIVE_OOM →
      (handleOomError tid now s).systemUnderMemoryPressure = true
        ∧ (handleOomError tid now s).cooldownFile
            = some ⟨true, now, s.consecutiveOomCount + 1, now + 900⟩)
    ∧ (∀ (now : Nat) (s : RouterState) (cd : CooldownData),
      s.cooldownFile = some cd → now > cd.cooldownUntil →
      checkMemoryPressureCooldown now s
        = (false, { s with
            cooldownFile := none
            systemUnderMemoryPressure := false
            consecutiveOomCount := 0 })) := by
  constructor
  · intro tid now s t h hge
    simp only [handleOomError, h, updateRTask, setMemoryPressureCooldown]
    simp [hge]
  · intro now s cd hcd hpast
    simp [checkMemoryPressureCooldown, hcd, hpast]

/-- C7: on lock-acquisition failure for a local-eligible, unflagged task,
`route_task` routes immediately to the fallback (flagging the task) when
the process is under memory pressure, and otherwise returns an
unsuccessful "System busy" result with the suggested retry delay while
leaving the task record — in particular `current_attempt` and the
`attempts` list — completely unchanged. -/
theorem routeTask_lock_contention (env : RouterEnv) (tid : Nat) (s : RouterState)
    (t : RoutingTask) (hl : lookupRTask s tid = some t)
    (hfb : t.fallbackToDevstral = false)
    (hlocal : (shouldUseLocalModel env t.taskType s).1 = true)
    (hlock : env.lockAcquired = false) :
    ((shouldUseLocalModel env t.taskType s).2.systemUnderMemoryPressure = true →
      routeTask env tid s
        = routeToDevstral env tid
            (updateRTask (shouldUseLocalModel env t.taskType s).2 tid
              (fun u => { u with fallbackToDevstral := true }))
      ∧ (routeTask env tid s).1.success = true
      ∧ (routeTask env tid s).1.fallback = some true
      ∧ (lookupRTask (routeTask env tid s).2 tid).map (·.fallbackToDevstral) = some true)
    ∧ ((shouldUseLocalModel env t.taskType s).2.systemUnderMemoryPressure = false →
      routeTask env tid s
        = (⟨false, none, none, some "System busy, please wait and retry",
            none, none, some RETRY_AFTER_BUSY, none⟩,
           (shouldUseLocalModel env t.taskType s).2)
      ∧ lookupRTask (routeTask env tid s).2 tid = some t) := by
  have hroute : routeTask env tid s
      = (if (shouldUseLocalModel env t.taskType s).2.systemUnderMemoryPressure then
          routeToDevstral env tid
            (updateRTask (shouldUseLocalModel env t.taskType s).2 tid
              (fun u => { u with fallbackToDevstral := true }))
        else
          (⟨false, none, none, some "System busy, please wait and retry",
            none, none, some RETRY_AFTER_BUSY, none⟩,
           (shouldUseLocalModel env t.taskType s).2)) := by
    simp only [routeTask, hl, hfb, hlocal, hlock]
    rfl
  constructor
  · intro hpress
    rw [hroute, if_pos hpress]
    refine ⟨rfl, rfl, rfl, ?_⟩
    simp only [routeToDevstral]
    rw [lookupRTask_updateRTask_self, lookupRTask_updateRTask_self,
      lookupRTask_shouldUseLocalModel, hl]
    rfl
  · intro hpress
    rw [hroute, if_neg (by simp [hpress])]
    refine ⟨rfl, ?_⟩
    rw [lookupRTask_shouldUseLocalModel, hl]

/-- C7 witness. -/
theorem routeTask_lock_contention_witness :
    (routeTask ⟨1, 7, true, false, "all good"⟩ 0
        ⟨[(0, ⟨0, "p", TaskType.CODE_IMPLEMENTATION, 3, 3, [], 0, false, 0, 0, none⟩)],
          true, some 0, 1, none, 1⟩).1.success = true
    ∧ (lookupRTask (routeTask ⟨1, 7, true, false, "all good"⟩ 0
        ⟨[(0, ⟨0, "p", TaskType.CODE_IMPLEMENTATION, 3, 3, [], 0, false, 0, 0, none⟩)],
          true, some 0, 1, none, 1⟩).2 0).map (·.fallbackToDevstral) = some true
    ∧ routeTask ⟨1, 7, true, false, "all good"⟩ 0
        ⟨[(0, ⟨0, "p", TaskType.CODE_IMPLEMENTATION, 3, 3, [], 0, false, 0, 0, none⟩)],
          false, none, 0, none, 1⟩
      = (⟨false, none, none, some "System busy, please wait and retry",
          none, none, some RETRY_AFTER_BUSY, none⟩,
         ⟨[(0, ⟨0, "p", TaskType.CODE_IMPLEMENTATION, 3, 3, [], 0, false, 0, 0, none⟩)],
          false, none, 0, none, 1⟩) := by
  refine ⟨?_, ?_, ?_⟩
  · exact ((routeTask_lock_contention _ 0 _ _ (by rfl) (by rfl) (by decide) (by rfl)).1
      (by decide)).2.1
  · exact ((routeTask_lock_contention _ 0 _ _ (by rfl) (by rfl) (by decide) (by rfl)).1
      (by decide)).2.2.2
  · have h := ((routeTask_lock_contention
      (⟨1, 7, true, false, "all good"⟩ : RouterEnv) 0
      ⟨[(0, ⟨0, "p", TaskType.CODE_IMPLEMENTATION, 3, 3, [], 0, false, 0, 0, none⟩)],
        false, none, 0, none, 1⟩ _ (by rfl) (by rfl) (by decide) (by rfl)).2
      (by decide)).1
    rw [h]
    rfl

/-- C6 witness. -/
theorem oom_cooldown_lifecycle_witness :
    ((handleOomError 0 50
        ⟨[(0, ⟨0, "p", TaskType.TESTING, 3, 3, [], 0, false, 0, 0, none⟩)],
          false, none, 2, none, 1⟩).systemUnderMemoryPressure = true
      ∧ (handleOomError 0 50
          ⟨[(0, ⟨0, "p", TaskType.TESTING, 3, 3, [], 0, false, 0, 0, none⟩)],
            false, none, 2, none, 1⟩).cooldownFile = some ⟨true, 50, 3, 950⟩)
    ∧ checkMemoryPressureCooldown 1000
        ⟨[], true, some 50, 3, some ⟨true, 50, 3, 950⟩, 0⟩
      = (false, ⟨[], false, some 50, 0, none, 0⟩) := by
  constructor
  · exact oom_cooldown_lifecycle.1 0 50 _ _ (by rfl) (by decide)
  · exact oom_cooldown_lifecycle.2 1000 _ ⟨true, 50, 3, 950⟩ (by rfl) (by decide)

/-- C5: an OOM-classified local attempt sets the task's
`fallback_to_devstral` flag; a flagged task is routed by `route_task`
straight to the Devstral fallback — an always-successful result —
independently of the lock-acquisition outcome and of any local-model
response (only a `Devstral-2` attempt is recorded); and the flag, once
set, survives every further router operation. -/
theorem oom_fallback_latching :
    (∀ (env : RouterEnv) (tid : Nat) (s : RouterState) (t : RoutingTask),
      lookupRTask s tid = some t →
      (routeToLocalModel env tid s).1.oomDetected = some true →
      (lookupRTask (routeToLocalModel env tid s).2 tid).map (·.fallbackToDevstral)
        = some true)
    ∧ (∀ (env : RouterEnv) (tid : Nat) (s : RouterState) (t : RoutingTask),
      lookupRTask s tid = some t →
      t.fallbackToDevstral = true →
      routeTask env tid s
          = routeToDevstral env tid (shouldUseLocalModel env t.taskType s).2
      ∧ (routeTask env tid s).1.success = true
      ∧ (routeTask env tid s).1.fallback = some true
      ∧ (∀ b r, routeTask ⟨env.now, env.attemptId, env.ollamaAvailable, b, r⟩ tid s
          = routeTask env tid s)
      ∧ (lookupRTask (routeTask env tid s).2 tid).map (·.attempts)
          = some (t.attempts ++
              [⟨env.attemptId, env.now, "Devstral-2", true, none, false⟩]))
    ∧ (∀ (s : RouterState) (tid : Nat) (t : RoutingTask) (op : RouterOp),
      lookupRTask s tid = some t → t.fallbackToDevstral = true →
      (lookupRTask (applyRouterOp s op) tid).map (·.fallbackToDevstral) = some true) := by
  refine ⟨?_, ?_, fun s tid t op h hfb => routerOp_preserves_flag s tid t op h hfb⟩
  · intro env tid s t h hoom
    cases hE : localAttemptError env with
    | none =>
        rw [routeToLocalModel_success_eq env tid s t h hE] at hoom
        simp at hoom
    | some e =>
        by_cases hOom : detectOomError e = true
        · rw [routeToLocalModel_oom_eq env tid s t e h hE hOom]
          apply flag_after_update_map _ tid tid _ _
            (lookupRTask_handleOomError_self tid env.now s t h) rfl
          intro u _
          rfl
        · have hOomF : detectOomError e = false := by simpa using hOom
          rw [routeToLocalModel_failure_eq env tid s t e h hE hOomF] at hoom
          simp at hoom
  · intro env tid s t h hfb
    have heq := routeTask_flagged_eq env tid s t h hfb
    refine ⟨heq, by rw [heq]; rfl, by rw [heq]; rfl, ?_, ?_⟩
    · intro b r
      rw [routeTask_flagged_eq ⟨env.now, env.attemptId, env.ollamaAvailable, b, r⟩
          tid s t h hfb, heq,
        shouldUseLocalModel_env_eq ⟨env.now, env.attemptId, env.ollamaAvailable, b, r⟩
          env t.taskType s rfl rfl]
      exact routeToDevstral_env_eq _ env tid _ rfl rfl
    · rw [heq]
      simp only [routeToDevstral]
      rw [lookupRTask_updateRTask_self, lookupRTask_shouldUseLocalModel, h]
      rfl

/-- C5 witness. -/
theorem oom_fallback_latching_witness :
    (lookupRTask (routeToLocalModel ⟨1, 7, true, true, "CUDA out of memory"⟩ 0
        ⟨[(0, ⟨0, "p", TaskType.TESTING, 3, 3, [], 0, false, 0, 0, none⟩)],
          false, none, 0, none, 1⟩).2 0).map (·.fallbackToDevstral) = some true
    ∧ (routeTask ⟨2, 8, true, false, "ignored"⟩ 0
        ⟨[(0, ⟨0, "p", TaskType.TESTING, 3, 3, [], 1, true, 0, 0, none⟩)],
          false, none, 0, none, 1⟩).1.success = true
    ∧ (routeTask ⟨2, 8, true, false, "ignored"⟩ 0
        ⟨[(0, ⟨0, "p", TaskType.TESTING, 3, 3, [], 1, true, 0, 0, none⟩)],
          false, none, 0, none, 1⟩).1.fallback = some true
    ∧ (lookupRTask (applyRouterOp
        ⟨[(0, ⟨0, "p", TaskType.TESTING, 3, 3, [], 1, true, 0, 0, none⟩)],
          false, none, 0, none, 1⟩
        (RouterOp.createTask "q" TaskType.PLANNING 2 9)) 0).map (·.fallbackToDevstral)
      = some true := by
  refine ⟨?_, ?_, ?_, ?_⟩
  · exact oom_fallback_latching.1 ⟨1, 7, true, true, "CUDA out of memory"⟩ 0 _
      ⟨0, "p", TaskType.TESTING, 3, 3, [], 0, false, 0, 0, none⟩ (by rfl) (by decide)
  · exact (oom_fallback_latching.2.1 ⟨2, 8, true, false, "ignored"⟩ 0 _
      ⟨0, "p", TaskType.TESTING, 3, 3, [], 1, true, 0, 0, none⟩ (by rfl) (by rfl)).2.1
  · exact (oom_fallback_latching.2.1 ⟨2, 8, true, false, "ignored"⟩ 0 _
      ⟨0, "p", TaskType.TESTING, 3, 3, [], 1, true, 0, 0, none⟩ (by rfl) (by rfl)).2.2.1
  · exact oom_fallback_latching.2.2 _ 0
      ⟨0, "p", TaskType.TESTING, 3, 3, [], 1, true, 0, 0, none⟩ _ (by rfl) (by rfl)

theorem runBeforeTurnAux_stop (pre : List MiddlewareResult) (r : MiddlewareResult)
    (rest : List MiddlewareResult)
    (hr : r.action = MiddlewareAction.STOP ∨ r.action = MiddlewareAction.COMPACT) :
    ∀ acc : List String,
      (∀ p ∈ pre, p.action ≠ MiddlewareAction.STOP
        ∧ p.action ≠ MiddlewareAction.COMPACT) →
      runBeforeTurnAux (pre ++ r :: rest) acc = r := by
  induction pre with
  | nil =>
      intro acc _
      have hni : ¬ (r.action = MiddlewareAction.INJECT_MESSAGE
          ∧ truthyMsg r.message = true) := by
        rcases hr with h | h <;> simp [h]
      simp only [List.nil_append, runBeforeTurnAux]
      rw [if_neg hni, if_pos hr]
  | cons p ps ih =>
      intro acc hpre
      have hp := hpre p (List.mem_cons_self p ps)
      have hps : ∀ q ∈ ps, q.action ≠ MiddlewareAction.STOP
          ∧ q.action ≠ MiddlewareAction.COMPACT :=
        fun q hq => hpre q (List.mem_cons_of_mem p hq)
      have hnc : ¬ (p.action = MiddlewareAction.STOP
          ∨ p.action = MiddlewareAction.COMPACT) := by
        simp [hp.1, hp.2]
      by_cases hc : p.action = MiddlewareAction.INJECT_MESSAGE
          ∧ truthyMsg p.message = true
      · simp only [List.cons_append, runBeforeTurnAux]
        rw [if_pos hc]
        exact ih _ hps
      · simp only [List.cons_append, runBeforeTurnAux]
        rw [if_neg hc, if_neg hnc]
        exact ih _ hps

theorem runBeforeTurnAux_no_stop (results : List MiddlewareResult) :
    ∀ acc : List String,
      (∀ r ∈ results, r.action ≠ MiddlewareAction.STOP
        ∧ r.action ≠ MiddlewareAction.COMPACT) →
      runBeforeTurnAux results acc
        = (if (acc ++ specAccumulatedMessages results).isEmpty then {}
          else { action := MiddlewareAction.INJECT_MESSAGE
                 message := some (String.intercalate "\n\n"
                   (acc ++ specAccumulatedMessages results)) }) := by
  induction results with
  | nil =>
      intro acc _
      simp [runBeforeTurnAux, specAccumulatedMessages]
  | cons r rs ih =>
      intro acc h
      have hrs : ∀ q ∈ rs, q.action ≠ MiddlewareAction.STOP
          ∧ q.action ≠ MiddlewareAction.COMPACT :=
        fun q hq => h q (List.mem_cons_of_mem r hq)
      have hr := h r (List.mem_cons_self r rs)
      have hnc : ¬ (r.action = MiddlewareAction.STOP
          ∨ r.action = MiddlewareAction.COMPACT) := by
        simp [hr.1, hr.2]
      by_cases hc : r.action = MiddlewareAction.INJECT_MESSAGE
          ∧ truthyMsg r.message = true
      · simp only [runBeforeTurnAux]
        rw [if_pos hc, ih _ hrs]
        have : specAccumulatedMessages (r :: rs)
            = r.message.getD "" :: specAccumulatedMessages rs := by
          simp [specAccumulatedMessages, List.filterMap_cons, hc.1, hc.2]
        rw [this, List.append_assoc]
        rfl
      · simp only [runBeforeTurnAux]
        rw [if_neg hc, if_neg hnc, ih _ hrs]
        have : specAccumulatedMessages (r :: rs) = specAccumulatedMessages rs := by
          simp only [specAccumulatedMessages, List.filterMap_cons]
          rw [if_neg (by simpa using hc)]
        rw [this]

theorem runAfterTurn_inject_raises (pre : List (String × MiddlewareResult))
    (name : String) (r : MiddlewareResult) (rest : List (String × MiddlewareResult))
    (hpre : ∀ p ∈ pre, p.2.action = MiddlewareAction.CONTINUE)
    (hr : r.action = MiddlewareAction.INJECT_MESSAGE) :
    runAfterTurn (pre ++ (name, r) :: rest)
      = Except.error ("INJECT_MESSAGE not allowed in after_turn (from " ++ name ++ ")") := by
  induction pre with
  | nil =>
      simp only [List.nil_append, runAfterTurn]
      rw [if_pos hr]
  | cons p ps ih =>
      have hp := hpre p (List.mem_cons_self p ps)
      simp only [List.cons_append, runAfterTurn]
      rw [if_neg (by simp [hp]), if_neg (by simp [hp])]
      exact ih (fun q hq => hpre q (List.mem_cons_of_mem p hq))

theorem checkForRepetition_cons_of (x : String) (l : List String)
    (h : checkForRepetition l = true) : checkForRepetition (x :: l) = true := by
  rcases l with _ | ⟨b, _ | ⟨c, _ | ⟨d, _ | ⟨e, rest⟩⟩⟩⟩
  · simp [checkForRepetition] at h
  · simp [checkForRepetition] at h
  · simp [checkForRepetition] at h
  · simp [checkForRepetition] at h
  · have heq : checkForRepetition (x :: b :: c :: d :: e :: rest)
        = ((decide (b = x) && decide (c = x) && decide (d = x) && decide (e = x))
          || checkForRepetition (b :: c :: d :: e :: rest)) := by
      cases rest <;> rfl
    rw [heq, h, Bool.or_true]

theorem checkForRepetition_iff (items : List String) :
    checkForRepetition items = true
      ↔ ∃ (a : String) (pre suf : List String),
          items = pre ++ a :: a :: a :: a :: a :: suf := by
  constructor
  · induction items with
    | nil => intro h; simp [checkForRepetition] at h
    | cons x l ih =>
        intro h
        rcases l with _ | ⟨b, _ | ⟨c, _ | ⟨d, _ | ⟨e, rest⟩⟩⟩⟩
        · simp [checkForRepetition] at h
        · simp [checkForRepetition] at h
        · simp [checkForRepetition] at h
        · simp [checkForRepetition] at h
        · have heq : checkForRepetition (x :: b :: c :: d :: e :: rest)
              = ((decide (b = x) && decide (c = x) && decide (d = x) && decide (e = x))
                || checkForRepetition (b :: c :: d :: e :: rest)) := by
            cases rest <;> rfl
          rw [heq, Bool.or_eq_true] at h
          rcases h with hw | hrec
          · simp only [Bool.and_eq_true, decide_eq_true_eq] at hw
            obtain ⟨⟨⟨hb, hc⟩, hd⟩, he⟩ := hw
            refine ⟨x, [], rest, ?_⟩
            rw [hb, hc, hd, he]
            rfl
          · obtain ⟨a, pre, suf, hdec⟩ := ih hrec
            exact ⟨a, x :: pre, suf, by rw [hdec]; rfl⟩
  · rintro ⟨a, pre, suf, rfl⟩
    induction pre with
    | nil =>
        have heq : checkForRepetition ([] ++ a :: a :: a :: a :: a :: suf)
            = ((decide (a = a) && decide (a = a) && decide (a = a) && decide (a = a))
              || checkForRepetition (a :: a :: a :: a :: suf)) := by
          cases suf <;> rfl
        rw [heq]
        simp
    | cons p pre' ih' =>
        show checkForRepetition (p :: (pre' ++ a :: a :: a :: a :: a :: suf)) = true
        exact checkForRepetition_cons_of p _ ih'

theorem loopAfterTurn_cases (resp : String) (tcs : List String) (s : LoopState) :
    (loopAfterTurn resp tcs s).1.action = MiddlewareAction.STOP
    ∨ loopAfterTurn resp tcs s
        = ({}, loopSetWarning (loopUpdateWindows resp tcs (loopCounted resp tcs s))) := by
  unfold loopAfterTurn
  split
  · left
    rfl
  · right
    rfl

theorem loopCounted_of_counts (resp : String) (tcs : List String) (s : LoopState)
    (o : String) (n : Nat) (hrc : s.repetitionCounts = some (o, n))
    (ho : loopTotalOutput resp tcs = o) (hne : o ≠ "") :
    loopCounted resp tcs s = { s with repetitionCounts := some (o, n + 1) } := by
  unfold loopCounted
  rw [ho, if_pos hne]
  unfold loopCountRepetition
  rw [hrc]
  simp

theorem loopAfterTurn_strict_stop (resp : String) (tcs : List String) (s : LoopState)
    (o : String) (n : Nat) (hrc : s.repetitionCounts = some (o, n))
    (ho : loopTotalOutput resp tcs = o) (hne : o ≠ "")
    (hth : n + 1 ≥ STRICT_REPETITION_THRESHOLD) :
    (loopAfterTurn resp tcs s).1
      = { action := MiddlewareAction.STOP, reason := some strictRepetitionReason } := by
  unfold loopAfterTurn
  rw [loopCounted_of_counts resp tcs s o n hrc ho hne, ho]
  rw [if_pos ⟨hne, by simpa using hth⟩]

/-- C9: the loop detector's `after_turn` never injects (it returns STOP
or CONTINUE only); when it continues, the one-shot pending warning is
queued exactly when a loop is detected in the updated windows, and the
following `before_turn` delivers a pending warning as an INJECT_MESSAGE
while clearing it; window-level detection fires exactly on a contiguous
run of 5 identical entries; and when the exact combined turn output
recurs for the 75th consecutive time (counter at 74, same non-empty
output again), `after_turn` returns STOP with a reason containing
"repetition". -/
theorem loop_detection_spec :
    (∀ (resp : String) (tcs : List String) (s : LoopState),
      (loopAfterTurn resp tcs s).1.action ≠ MiddlewareAction.INJECT_MESSAGE)
    ∧ (∀ (resp : String) (tcs : List String) (s : LoopState),
      (loopAfterTurn resp tcs s).1.action = MiddlewareAction.CONTINUE →
      (loopAfterTurn resp tcs s).2.pendingWarning
        = (if (detectLoop (loopAfterTurn resp tcs s).2).1 then
            some (loopWarningMessage (detectLoop (loopAfterTurn resp tcs s).2).2)
          else none))
    ∧ (∀ (s : LoopState) (w : String), s.pendingWarning = some w →
      loopBeforeTurn s
        = ({ action := MiddlewareAction.INJECT_MESSAGE, message := some w },
           { s with pendingWarning := none }))
    ∧ (∀ items : List String, checkForRepetition items = true
        ↔ ∃ (a : String) (pre suf : List String),
            items = pre ++ a :: a :: a :: a :: a :: suf)
    ∧ (∀ (resp : String) (tcs : List String) (s : LoopState) (o : String) (n : Nat),
      s.repetitionCounts = some (o, n) → loopTotalOutput resp tcs = o → o ≠ "" →
      n + 1 ≥ STRICT_REPETITION_THRESHOLD →
      (loopAfterTurn resp tcs s).1
        = { action := MiddlewareAction.STOP, reason := some strictRepetitionReason }
      ∧ listIsSub "repetition".data strictRepetitionReason.data = true) := by
  refine ⟨?_, ?_, ?_, checkForRepetition_iff, ?_⟩
  · intro resp tcs s
    rcases loopAfterTurn_cases resp tcs s with hstop | heq
    · rw [hstop]
      decide
    · rw [heq]
      exact fun hx => nomatch hx
  · intro resp tcs s h
    rcases loopAfterTurn_cases resp tcs s with hstop | heq
    · rw [hstop] at h
      exact absurd h (by decide)
    · rw [heq]
      rfl
  · intro s w hw
    unfold loopBeforeTurn
    rw [hw]
  · intro resp tcs s o n hrc ho hne hth
    exact ⟨loopAfterTurn_strict_stop resp tcs s o n hrc ho hne hth, by decide⟩

/-- C9 witness. -/
theorem loop_detection_spec_witness :
    (loopAfterTurn "" ["a"] ⟨["a", "a", "a", "a"], [], none, none⟩).2.pendingWarning
      = some (loopWarningMessage "repetitive tool calls")
    ∧ loopBeforeTurn ⟨[], [], none, some "warn"⟩
      = ({ action := MiddlewareAction.INJECT_MESSAGE, message := some "warn" },
         ⟨[], [], none, none⟩)
    ∧ (∃ (a : String) (pre suf : List String),
        ["x", "x", "x", "x", "x"] = pre ++ a :: a :: a :: a :: a :: suf)
    ∧ (loopAfterTurn "x" [] ⟨[], [], some ("x", 74), none⟩).1
      = { action := MiddlewareAction.STOP, reason := some strictRepetitionReason } := by
  refine ⟨?_, ?_, ?_, ?_⟩
  · have h := loop_detection_spec.2.1 "" ["a"]
      ⟨["a", "a", "a", "a"], [], none, none⟩ (by decide)
    rw [h]
    decide
  · exact loop_detection_spec.2.2.1 ⟨[], [], none, some "warn"⟩ "warn" rfl
  · exact (loop_detection_spec.2.2.2.1 ["x", "x", "x", "x", "x"]).mp (by decide)
  · exact (loop_detection_spec.2.2.2.2 "x" [] ⟨[], [], some ("x", 74), none⟩ "x" 74
      rfl rfl (by decide) (by decide)).1

/-- C8 counterexample: an `INJECT_MESSAGE` result whose `message` is
`None` is silently dropped by `run_before_turn` (Python checks
`result.action == INJECT_MESSAGE and result.message`): with such a
result as the only policy output the pipeline returns a plain CONTINUE
result, not a combined INJECT_MESSAGE — so not *all* INJECT_MESSAGE
results are accumulated. -/
theorem inject_without_message_dropped :
    runBeforeTurn [{ action := MiddlewareAction.INJECT_MESSAGE, message := none }]
      = ({} : MiddlewareResult)
    ∧ ({} : MiddlewareResult).action = MiddlewareAction.CONTINUE
    ∧ MiddlewareAction.CONTINUE ≠ MiddlewareAction.INJECT_MESSAGE := by
  refine ⟨rfl, rfl, by decide⟩

/-- C8 (amended): `run_before_turn` evaluates policies in registration
order; the first STOP or COMPACT result is returned immediately, later
policies unconsulted; with no STOP/COMPACT, all INJECT_MESSAGE results
*carrying a non-empty message* are accumulated and joined with blank
lines into one combined INJECT_MESSAGE (message-less INJECT_MESSAGE
results are skipped; with nothing accumulated the pipeline returns
CONTINUE); and in `run_after_turn` the first policy returning
INJECT_MESSAGE causes a raised `ValueError`. -/
theorem middleware_pipeline_spec :
    (∀ (pre : List MiddlewareResult) (r : MiddlewareResult)
      (rest : List MiddlewareResult),
      (∀ p ∈ pre, p.action ≠ MiddlewareAction.STOP
        ∧ p.action ≠ MiddlewareAction.COMPACT) →
      (r.action = MiddlewareAction.STOP ∨ r.action = MiddlewareAction.COMPACT) →
      runBeforeTurn (pre ++ r :: rest) = r)
    ∧ (∀ results : List MiddlewareResult,
      (∀ r ∈ results, r.action ≠ MiddlewareAction.STOP
        ∧ r.action ≠ MiddlewareAction.COMPACT) →
      runBeforeTurn results
        = (if (specAccumulatedMessages results).isEmpty then {}
          else { action := MiddlewareAction.INJECT_MESSAGE
                 message := some (String.intercalate "\n\n"
                   (specAccumulatedMessages results)) }))
    ∧ (∀ (pre : List (String × MiddlewareResult)) (name : String)
      (r : MiddlewareResult) (rest : List (String × MiddlewareResult)),
      (∀ p ∈ pre, p.2.action = MiddlewareAction.CONTINUE) →
      r.action = MiddlewareAction.INJECT_MESSAGE →
      runAfterTurn (pre ++ (name, r) :: rest)
        = Except.error
            ("INJECT_MESSAGE not allowed in after_turn (from " ++ name ++ ")")) := by
  refine ⟨?_, ?_, runAfterTurn_inject_raises⟩
  · intro pre r rest hpre hr
    exact runBeforeTurnAux_stop pre r rest hr [] hpre
  · intro results h
    have := runBeforeTurnAux_no_stop results [] h
    simpa [runBeforeTurn] using this

/-- C8 witness. -/
theorem middleware_pipeline_spec_witness :
    runBeforeTurn [{ action := MiddlewareAction.INJECT_MESSAGE, message := some "a" },
        { action := MiddlewareAction.STOP, reason := some "limit" },
        { action := MiddlewareAction.COMPACT }]
      = { action := MiddlewareAction.STOP, reason := some "limit" }
    ∧ runBeforeTurn [{ action := MiddlewareAction.INJECT_MESSAGE, message := some "a" },
        ({} : MiddlewareResult),
        { action := MiddlewareAction.INJECT_MESSAGE, message := some "b" }]
      = { action := MiddlewareAction.INJECT_MESSAGE
          message := some (String.intercalate "\n\n" ["a", "b"]) }
    ∧ runAfterTurn [("TurnLimitMiddleware", {}),
        ("LoopDetectionMiddleware",
          { action := MiddlewareAction.INJECT_MESSAGE, message := some "w" })]
      = Except.error
          ("INJECT_MESSAGE not allowed in after_turn (from LoopDetectionMiddleware)") := by
  refine ⟨?_, ?_, ?_⟩
  · exact middleware_pipeline_spec.1
      [{ action := MiddlewareAction.INJECT_MESSAGE, message := some "a" }]
      { action := MiddlewareAction.STOP, reason := some "limit" }
      [{ action := MiddlewareAction.COMPACT }] (by decide) (by decide)
  · have := middleware_pipeline_spec.2.1
      [{ action := MiddlewareAction.INJECT_MESSAGE, message := some "a" },
        ({} : MiddlewareResult),
        { action := MiddlewareAction.INJECT_MESSAGE, message := some "b" }] (by decide)
    rw [this]
    rfl
  · exact middleware_pipeline_spec.2.2 [("TurnLimitMiddleware", {})]
      "LoopDetectionMiddleware"
      { action := MiddlewareAction.INJECT_MESSAGE, message := some "w" } [] (by decide)
      (by decide)

/-- C4 counterexample: a *successful* local attempt also increments
`current_attempt` (from 0 to 1 here), contrary to the claim that only
failed, non-OOM attempts do. -/
theorem successful_attempt_increments_counter :
    (lookupRTask (routeTask ⟨1, 7, true, true, "all good"⟩ 0
        (createRoutingTask "p" TaskType.CODE_IMPLEMENTATION 3 0 RouterState.init).2).2 0).map
      (fun t => (t.currentAttempt, t.attempts.length, t.fallbackToDevstral))
      = some (1, 1, false)
    ∧ (routeTask ⟨1, 7, true, true, "all good"⟩ 0
        (createRoutingTask "p" TaskType.CODE_IMPLEMENTATION 3 0 RouterState.init).2).1.success
      = true := by
  constructor
  · decide
  · decide

/-- C4 (amended): `_route_to_local_model` increments `current_attempt` on
*every* local attempt, successful or not; on a failed attempt that is
OOM-classified or whose incremented `current_attempt` has reached
`max_attempts` (default 3), the task is flagged `fallback_to_devstral`
and no retry delay is offered, while a failed non-OOM attempt below
`max_attempts` is offered `retry_after = min(2^(n-1), 30)` for the
updated attempt count `n` and leaves the flag unchanged. -/
theorem routeToLocalModel_attempt_accounting (env : RouterEnv) (tid : Nat)
    (s : RouterState) (t : RoutingTask) (h : lookupRTask s tid = some t) :
    ((lookupRTask (routeToLocalModel env tid s).2 tid).map (·.currentAttempt)
        = some (t.currentAttempt + 1))
    ∧ ((routeToLocalModel env tid s).1.success = false →
        (routeToLocalModel env tid s).1.oomDetected = some true →
        (lookupRTask (routeToLocalModel env tid s).2 tid).map (·.fallbackToDevstral)
            = some true
        ∧ (routeToLocalModel env tid s).1.retryAfter = none)
    ∧ ((routeToLocalModel env tid s).1.success = false →
        (routeToLocalModel env tid s).1.oomDetected = some false →
        t.currentAttempt + 1 ≥ t.maxAttempts →
        (lookupRTask (routeToLocalModel env tid s).2 tid).map (·.fallbackToDevstral)
            = some true
        ∧ (routeToLocalModel env tid s).1.retryAfter = none)
    ∧ ((routeToLocalModel env tid s).1.success = false →
        (routeToLocalModel env tid s).1.oomDetected = some false →
        t.currentAttempt + 1 < t.maxAttempts →
        (routeToLocalModel env tid s).1.retryAfter
            = some (getRetryDelay ((t.currentAttempt + 1 : Nat) : ℤ))
        ∧ (lookupRTask (routeToLocalModel env tid s).2 tid).map (·.fallbackToDevstral)
            = some t.fallbackToDevstral)
    ∧ ((routeToLocalModel env tid s).1.success = true →
        (lookupRTask (routeToLocalModel env tid s).2 tid).map (·.fallbackToDevstral)
          = some t.fallbackToDevstral) := by
  cases hE : localAttemptError env with
  | none =>
      rw [routeToLocalModel_success_eq env tid s t h hE]
      refine ⟨?_, ?_, ?_, ?_, ?_⟩
      · rw [lookupRTask_updateRTask_self, h]
        rfl
      · intro hs
        simp at hs
      · intro hs
        simp at hs
      · intro hs
        simp at hs
      · intro _
        rw [lookupRTask_updateRTask_self, h]
        rfl
  | some e =>
      by_cases hOom : detectOomError e = true
      · rw [routeToLocalModel_oom_eq env tid s t e h hE hOom]
        have hs1 := lookupRTask_handleOomError_self tid env.now s t h
        refine ⟨?_, ?_, ?_, ?_, ?_⟩
        · rw [lookupRTask_updateRTask_self, hs1]
          rfl
        · intro _ _
          refine ⟨?_, rfl⟩
          rw [lookupRTask_updateRTask_self, hs1]
          rfl
        · intro _ hod
          exact absurd hod (by simp)
        · intro _ hod
          exact absurd hod (by simp)
        · intro hs
          simp at hs
      · have hOomF : detectOomError e = false := by simpa using hOom
        rw [routeToLocalModel_failure_eq env tid s t e h hE hOomF]
        by_cases hMax : t.currentAttempt + 1 ≥ t.maxAttempts
        · refine ⟨?_, ?_, ?_, ?_, ?_⟩
          · rw [lookupRTask_updateRTask_self, h]
            simp [hMax]
          · intro _ hod
            exact absurd hod (by simp)
          · intro _ _ _
            constructor
            · rw [lookupRTask_updateRTask_self, h]
              simp [hMax]
            · simp [hMax]
          · intro _ _ hlt
            exact absurd hMax (not_le.mpr hlt)
          · intro hs
            simp at hs
        · refine ⟨?_, ?_, ?_, ?_, ?_⟩
          · rw [lookupRTask_updateRTask_self, h]
            simp [hMax]
          · intro _ hod
            exact absurd hod (by simp)
          · intro _ _ hge
            exact absurd hge hMax
          · intro _ _ _
            constructor
            · simp [hMax]
            · rw [lookupRTask_updateRTask_self, h]
              simp [hMax]
          · intro hs
            simp at hs

/-- C4 witness. -/
theorem routeToLocalModel_attempt_accounting_witness :
    ((lookupRTask (routeToLocalModel ⟨1, 7, false, true, ""⟩ 0
        ⟨[(0, ⟨0, "p", TaskType.TESTING, 3, 3, [], 0, false, 0, 0, none⟩)],
          false, none, 0, none, 1⟩).2 0).map (·.currentAttempt) = some 1)
    ∧ ((routeToLocalModel ⟨1, 7, false, true, ""⟩ 0
        ⟨[(0, ⟨0, "p", TaskType.TESTING, 3, 3, [], 0, false, 0, 0, none⟩)],
          false, none, 0, none, 1⟩).1.retryAfter
        = some (getRetryDelay ((0 + 1 : Nat) : ℤ))) := by
  have h := routeToLocalModel_attempt_accounting ⟨1, 7, false, true, ""⟩ 0
    ⟨[(0, ⟨0, "p", TaskType.TESTING, 3, 3, [], 0, false, 0, 0, none⟩)],
      false, none, 0, none, 1⟩
    ⟨0, "p", TaskType.TESTING, 3, 3, [], 0, false, 0, 0, none⟩ (by rfl)
  exact ⟨h.1, (h.2.2.2.1 (by decide) (by decide) (by decide)).1⟩

/-! ## TaskManager lemmas -/

theorem lookupTask_updateTask_self (s : TMState) (tid : Nat)
    (f : CollaborativeTask → CollaborativeTask) :
    lookupTask (updateTask s tid f) tid = (lookupTask s tid).map f := by
  unfold lookupTask updateTask
  simp only [find?_keyed_map]
  cases s.tasks.find? (fun p => p.1 = tid) <;> rfl

theorem lookupTask_updateTask_ne (s : TMState) (tid d : Nat)
    (f : CollaborativeTask → CollaborativeTask) (hne : d ≠ tid) :
    lookupTask (updateTask s tid f) d = lookupTask s d := by
  unfold lookupTask updateTask
  simp only [find?_keyed_map_ne _ _ _ _ hne]

theorem keys_updateTask (s : TMState) (tid : Nat)
    (f : CollaborativeTask → CollaborativeTask) :
    (updateTask s tid f).tasks.map Prod.fst = s.tasks.map Prod.fst := by
  unfold updateTask
  rw [List.map_map]
  apply List.map_congr_left
  intro p _
  by_cases h : p.1 = tid <;> simp [h]

theorem lookupTask_queue_irrel (s : TMState) (q : List Nat) (d : Nat) :
    lookupTask { s with taskQueue := q } d = lookupTask s d := rfl

theorem find?_append_of_found (l q : List (Nat × CollaborativeTask)) (tid : Nat)
    (t : CollaborativeTask) (h : (l.find? (fun p => p.1 = tid)).map (·.2) = some t) :
    ((l ++ q).find? (fun p => p.1 = tid)).map (·.2) = some t := by
  rw [List.find?_append]
  cases hf : l.find? (fun p => p.1 = tid) with
  | none => rw [hf] at h; simp at h
  | some p => rw [hf] at h; simpa [Option.or] using h

theorem lookupTask_append_new (l : List (Nat × CollaborativeTask)) (k : Nat)
    (t : CollaborativeTask) (hk : ∀ p ∈ l, p.1 ≠ k) :
    ((l ++ [(k, t)]).find? (fun p => p.1 = k)).map (·.2) = some t := by
  rw [List.find?_append]
  have : l.find? (fun p => p.1 = k) = none := by
    rw [List.find?_eq_none]
    intro p hp
    simpa using hk p hp
  rw [this]
  simp [Option.or, List.find?]

theorem getPriority_updateTask (s : TMState) (tid d : Nat)
    (f : CollaborativeTask → CollaborativeTask)
    (hf : ∀ u, (f u).priority = u.priority) :
    getPriority (updateTask s tid f) d = getPriority s d := by
  unfold getPriority
  by_cases hd : d = tid
  · subst hd
    rw [lookupTask_updateTask_self]
    cases lookupTask s d with
    | none => rfl
    | some u => simp [hf u]
  · rw [lookupTask_updateTask_ne _ _ _ _ hd]

theorem lookupTask_markBlocked (s : TMState) (tid now d : Nat) :
    lookupTask (markBlocked s tid now) d = lookupTask s d
    ∨ (d = tid ∧ ∃ t, lookupTask s d = some t
        ∧ lookupTask (markBlocked s tid now) d
            = some { t with status := TaskStatus.BLOCKED, updatedAt := now }) := by
  unfold markBlocked
  cases hl : lookupTask s tid with
  | none => left; rfl
  | some t =>
      simp only []
      by_cases hb : t.status ≠ TaskStatus.BLOCKED
      · rw [if_pos hb]
        by_cases hd : d = tid
        · subst hd
          right
          exact ⟨rfl, t, hl, by rw [lookupTask_updateTask_self, hl]; rfl⟩
        · left
          exact lookupTask_updateTask_ne _ _ _ _ hd
      · rw [if_neg hb]
        left
        rfl

theorem getPriority_markBlocked (s : TMState) (tid now d : Nat) :
    getPriority (markBlocked s tid now) d = getPriority s d := by
  rcases lookupTask_markBlocked s tid now d with h | ⟨_, t, ht, ht'⟩
  · unfold getPriority
    rw [h]
  · unfold getPriority
    rw [ht, ht']

theorem markBlocked_queue (s : TMState) (tid now : Nat) :
    (markBlocked s tid now).taskQueue = s.taskQueue := by
  unfold markBlocked
  cases lookupTask s tid with
  | none => rfl
  | some t =>
      simp only []
      split <;> rfl

theorem markBlocked_keys (s : TMState) (tid now : Nat) :
    (markBlocked s tid now).tasks.map Prod.fst = s.tasks.map Prod.fst := by
  unfold markBlocked
  cases lookupTask s tid with
  | none => rfl
  | some t =>
      simp only []
      split <;> simp [keys_updateTask]

theorem markBlocked_nextId (s : TMState) (tid now : Nat) :
    (markBlocked s tid now).nextId = s.nextId := by
  unfold markBlocked
  cases lookupTask s tid with
  | none => rfl
  | some t =>
      simp only []
      split <;> rfl

theorem markBlocked_completed (s : TMState) (tid now : Nat) :
    (markBlocked s tid now).completedTasks = s.completedTasks := by
  unfold markBlocked
  cases lookupTask s tid with
  | none => rfl
  | some t =>
      simp only []
      split <;> rfl

theorem depUnresolved_markBlocked (s : TMState) (q now : Nat)
    (hq : ∀ t, lookupTask s q = some t → t.status ≠ TaskStatus.COMPLETED) (dep : Nat) :
    depUnresolved (markBlocked s q now) dep = depUnresolved s dep := by
  rcases lookupTask_markBlocked s q now dep with h | ⟨hdq, t, ht, ht'⟩
  · unfold depUnresolved
    rw [h]
  · unfold depUnresolved
    rw [ht, ht']
    have hco : t.status ≠ TaskStatus.COMPLETED := by
      apply hq
      rw [← hdq]
      exact ht
    simp [hco]

theorem isTaskBlocked_markBlocked (s : TMState) (q now : Nat)
    (hq : ∀ t, lookupTask s q = some t → t.status ≠ TaskStatus.COMPLETED) (d : Nat) :
    isTaskBlocked (markBlocked s q now) d = isTaskBlocked s d := by
  have hfun : depUnresolved (markBlocked s q now) = depUnresolved s :=
    funext (depUnresolved_markBlocked s q now hq)
  unfold isTaskBlocked
  rcases lookupTask_markBlocked s q now d with h | ⟨hdq, t, ht, ht'⟩
  · rw [h, hfun]
  · rw [ht, ht', hfun]

theorem lookupTask_markBlocked_ne (s : TMState) (q now d : Nat) (hd : d ≠ q) :
    lookupTask (markBlocked s q now) d = lookupTask s d := by
  rcases lookupTask_markBlocked s q now d with h | ⟨hdq, _, _, _⟩
  · exact h
  · exact absurd hdq hd

theorem markBlocked_status_self (s : TMState) (q now : Nat) (t0 : CollaborativeTask)
    (h0 : lookupTask s q = some t0) (t : CollaborativeTask)
    (ht : lookupTask (markBlocked s q now) q = some t)
    (hb : isTaskBlocked s q = true) :
    t.status = TaskStatus.BLOCKED := by
  unfold markBlocked at ht
  rw [h0] at ht
  simp only [] at ht
  by_cases hs : t0.status ≠ TaskStatus.BLOCKED
  · rw [if_pos hs, lookupTask_updateTask_self, h0] at ht
    simp only [Option.map] at ht
    cases ht
    rfl
  · rw [if_neg hs] at ht
    rw [h0] at ht
    cases ht
    simpa using hs

theorem scanQueue_queue (now : Nat) (l : List Nat) (s : TMState) :
    (scanQueue now l s).2.taskQueue = s.taskQueue := by
  induction l generalizing s with
  | nil => rfl
  | cons q rest ih =>
      unfold scanQueue
      by_cases hb : isTaskBlocked s q
      · rw [if_pos hb, ih, markBlocked_queue]
      · rw [if_neg hb]

theorem scanQueue_keys (now : Nat) (l : List Nat) (s : TMState) :
    (scanQueue now l s).2.tasks.map Prod.fst = s.tasks.map Prod.fst := by
  induction l generalizing s with
  | nil => rfl
  | cons q rest ih =>
      unfold scanQueue
      by_cases hb : isTaskBlocked s q
      · rw [if_pos hb, ih, markBlocked_keys]
      · rw [if_neg hb]

theorem scanQueue_nextId (now : Nat) (l : List Nat) (s : TMState) :
    (scanQueue now l s).2.nextId = s.nextId := by
  induction l generalizing s with
  | nil => rfl
  | cons q rest ih =>
      unfold scanQueue
      by_cases hb : isTaskBlocked s q
      · rw [if_pos hb, ih, markBlocked_nextId]
      · rw [if_neg hb]

theorem scanQueue_lookup_char (now : Nat) (l : List Nat) (s : TMState) (d : Nat) :
    lookupTask (scanQueue now l s).2 d = lookupTask s d
    ∨ ∃ t, lookupTask s d = some t
        ∧ lookupTask (scanQueue now l s).2 d
            = some { t with status := TaskStatus.BLOCKED, updatedAt := now } := by
  induction l generalizing s with
  | nil => left; rfl
  | cons q rest ih =>
      unfold scanQueue
      by_cases hb : isTaskBlocked s q
      · rw [if_pos hb]
        rcases ih (markBlocked s q now) with h | ⟨t, ht, ht'⟩
        · rcases lookupTask_markBlocked s q now d with h2 | ⟨hdq, t, ht, ht'⟩
          · left
            rw [h, h2]
          · right
            exact ⟨t, ht, by rw [h, ht']⟩
        · rcases lookupTask_markBlocked s q now d with h2 | ⟨hdq, t0, ht0, ht0'⟩
          · right
            rw [h2] at ht
            exact ⟨t, ht, ht'⟩
          · right
            refine ⟨t0, ht0, ?_⟩
            rw [ht0'] at ht
            cases ht
            exact ht'
      · rw [if_neg hb]
        left
        rfl

theorem scanQueue_getPriority (now : Nat) (l : List Nat) (s : TMState) (d : Nat) :
    getPriority (scanQueue now l s).2 d = getPriority s d := by
  rcases scanQueue_lookup_char now l s d with h | ⟨t, ht, ht'⟩
  · unfold getPriority
    rw [h]
  · unfold getPriority
    rw [ht, ht']

theorem scanQueue_blocked_inv (now : Nat) (l : List Nat) (s : TMState)
    (hnc : ∀ q ∈ l, ∀ t, lookupTask s q = some t → t.status ≠ TaskStatus.COMPLETED)
    (d : Nat) :
    isTaskBlocked (scanQueue now l s).2 d = isTaskBlocked s d := by
  induction l generalizing s with
  | nil => rfl
  | cons q rest ih =>
      unfold scanQueue
      by_cases hb : isTaskBlocked s q
      · rw [if_pos hb]
        have hq := hnc q (List.mem_cons_self q rest)
        have hnc2 : ∀ q' ∈ rest, ∀ t,
            lookupTask (markBlocked s q now) q' = some t →
            t.status ≠ TaskStatus.COMPLETED := by
          intro q' hq' t ht
          rcases lookupTask_markBlocked s q now q' with h2 | ⟨_, t0, ht0, ht0'⟩
          · rw [h2] at ht
            exact hnc q' (List.mem_cons_of_mem q hq') t ht
          · rw [ht0'] at ht
            cases ht
            simp
        rw [ih (markBlocked s q now) hnc2, isTaskBlocked_markBlocked s q now hq]
      · rw [if_neg hb]

theorem scanQueue_none_spec (now : Nat) (l : List Nat) (s : TMState)
    (hnc : ∀ q ∈ l, ∀ t, lookupTask s q = some t → t.status ≠ TaskStatus.COMPLETED)
    (hsub : ∀ q ∈ l, (lookupTask s q).isSome)
    (h : (scanQueue now l s).1 = none) :
    ∀ q ∈ l, isTaskBlocked s q = true
      ∧ (∀ t, lookupTask (scanQueue now l s).2 q = some t →
          t.status = TaskStatus.BLOCKED) := by
  induction l generalizing s with
  | nil => intro q hq; simp at hq
  | cons q0 rest ih =>
      by_cases hb : isTaskBlocked s q0
      · have hscan : scanQueue now (q0 :: rest) s
            = scanQueue now rest (markBlocked s q0 now) := by
          show (if isTaskBlocked s q0 = true then
              scanQueue now rest (markBlocked s q0 now)
            else (Option.map (fun t => (q0, t)) (lookupTask s q0), s)) = _
          rw [if_pos hb]
        have hq0 := hnc q0 (List.mem_cons_self q0 rest)
        have hnc2 : ∀ q' ∈ rest, ∀ t,
            lookupTask (markBlocked s q0 now) q' = some t →
            t.status ≠ TaskStatus.COMPLETED := by
          intro q' hq' t ht
          rcases lookupTask_markBlocked s q0 now q' with h2 | ⟨_, t0, ht0, ht0'⟩
          · rw [h2] at ht
            exact hnc q' (List.mem_cons_of_mem q0 hq') t ht
          · rw [ht0'] at ht
            cases ht
            simp
        have hsub2 : ∀ q' ∈ rest, (lookupTask (markBlocked s q0 now) q').isSome := by
          intro q' hq'
          rcases lookupTask_markBlocked s q0 now q' with h2 | ⟨_, t0, ht0, ht0'⟩
          · rw [h2]
            exact hsub q' (List.mem_cons_of_mem q0 hq')
          · rw [ht0']
            rfl
        rw [hscan] at h
        have ihr := ih (markBlocked s q0 now) hnc2 hsub2 h
        intro q hql
        rcases List.mem_cons.mp hql with rfl | hqr
        · refine ⟨hb, ?_⟩
          intro t ht
          rw [hscan] at ht
          obtain ⟨t0, ht0⟩ := Option.isSome_iff_exists.mp
            (hsub q (List.mem_cons_self q rest))
          have hstat : ∀ t', lookupTask (markBlocked s q now) q = some t' →
              t'.status = TaskStatus.BLOCKED :=
            fun t' ht' => markBlocked_status_self s q now t0 ht0 t' ht' hb
          rcases scanQueue_lookup_char now rest (markBlocked s q now) q with h2 | ⟨t1, ht1, ht1'⟩
          · rw [h2] at ht
            exact hstat t ht
          · rw [ht1'] at ht
            cases ht
            rfl
        · have := ihr q hqr
          refine ⟨?_, ?_⟩
          · rw [← isTaskBlocked_markBlocked s q0 now hq0 q]
            exact this.1
          · intro t ht
            rw [hscan] at ht
            exact this.2 t ht
      · exfalso
        have : (scanQueue now (q0 :: rest) s).1
            = (lookupTask s q0).map (fun t => (q0, t)) := by
          show ((if isTaskBlocked s q0 = true then
              scanQueue now rest (markBlocked s q0 now)
            else (Option.map (fun t => (q0, t)) (lookupTask s q0), s))).1 = _
          rw [if_neg (by simpa using hb)]
        rw [this] at h
        obtain ⟨t0, ht0⟩ := Option.isSome_iff_exists.mp
          (hsub q0 (List.mem_cons_self q0 rest))
        rw [ht0] at h
        simp at h

theorem scanQueue_some_spec (now : Nat) (l : List Nat) (s : TMState)
    (hnc : ∀ q ∈ l, ∀ t, lookupTask s q = some t → t.status ≠ TaskStatus.COMPLETED)
    (tid : Nat) (t : CollaborativeTask)
    (h : (scanQueue now l s).1 = some (tid, t)) :
    ∃ pre rest, l = pre ++ tid :: rest
      ∧ (∀ q ∈ pre, isTaskBlocked s q = true)
      ∧ isTaskBlocked s tid = false
      ∧ lookupTask s tid = some t := by
  induction l generalizing s with
  | nil => simp [scanQueue] at h
  | cons q0 rest ih =>
      by_cases hb : isTaskBlocked s q0
      · have hscan : scanQueue now (q0 :: rest) s
            = scanQueue now rest (markBlocked s q0 now) := by
          show (if isTaskBlocked s q0 = true then
              scanQueue now rest (markBlocked s q0 now)
            else (Option.map (fun t => (q0, t)) (lookupTask s q0), s)) = _
          rw [if_pos hb]
        rw [hscan] at h
        have hq0 := hnc q0 (List.mem_cons_self q0 rest)
        have hnc2 : ∀ q' ∈ rest, ∀ u,
            lookupTask (markBlocked s q0 now) q' = some u →
            u.status ≠ TaskStatus.COMPLETED := by
          intro q' hq' u hu
          rcases lookupTask_markBlocked s q0 now q' with h2 | ⟨_, t0, ht0, ht0'⟩
          · rw [h2] at hu
            exact hnc q' (List.mem_cons_of_mem q0 hq') u hu
          · rw [ht0'] at hu
            cases hu
            simp
        obtain ⟨pre', rest', hl, hpre, hblk, hlk⟩ := ih (markBlocked s q0 now) hnc2 h
        have hblkS : isTaskBlocked s tid = false := by
          rw [← isTaskBlocked_markBlocked s q0 now hq0 tid]
          exact hblk
        have htidne : tid ≠ q0 := by
          intro he
          rw [he] at hblkS
          rw [hblkS] at hb
          exact Bool.noConfusion hb
        refine ⟨q0 :: pre', rest', by rw [List.cons_append, hl], ?_, hblkS, ?_⟩
        · intro q hq
          rcases List.mem_cons.mp hq with rfl | hq'
          · exact hb
          · rw [← isTaskBlocked_markBlocked s q0 now hq0 q]
            exact hpre q hq'
        · rw [← lookupTask_markBlocked_ne s q0 now tid htidne]
          exact hlk
      · have hres : scanQueue now (q0 :: rest) s
            = ((lookupTask s q0).map (fun u => (q0, u)), s) := by
          show (if isTaskBlocked s q0 = true then
              scanQueue now rest (markBlocked s q0 now)
            else (Option.map (fun t => (q0, t)) (lookupTask s q0), s)) = _
          rw [if_neg (by simpa using hb)]
        rw [hres] at h
        cases hl0 : lookupTask s q0 with
        | none => rw [hl0] at h; simp at h
        | some t0 =>
            rw [hl0] at h
            simp only [Option.map] at h
            cases h
            exact ⟨[], rest, rfl, by simp, by simpa using hb, hl0⟩

theorem pairwise_orderedInsert {α : Type} (r : α → α → Prop) [DecidableRel r]
    (Q : α → α → Prop) (hrQ : ∀ a b, ¬ r a b → Q b a)
    (x : α) (l : List α) (h1 : ∀ b ∈ l, Q x b) (h2 : l.Pairwise Q) :
    (l.orderedInsert r x).Pairwise Q := by
  induction l with
  | nil => simp
  | cons y ys ih =>
      simp only [List.orderedInsert]
      by_cases hr : r x y
      · rw [if_pos hr]
        exact List.Pairwise.cons h1 h2
      · rw [if_neg hr]
        rcases List.pairwise_cons.mp h2 with ⟨hy, hys⟩
        refine List.Pairwise.cons ?_
          (ih (fun b hb => h1 b (List.mem_cons_of_mem y hb)) hys)
        intro b hb
        rcases (List.mem_orderedInsert r).mp hb with heq | hb'
        · rw [heq]
          exact hrQ x y hr
        · exact hy b hb'

theorem pairwise_insertionSort {α : Type} (r : α → α → Prop) [DecidableRel r]
    (Q : α → α → Prop) (hrQ : ∀ a b, ¬ r a b → Q b a)
    (l : List α) (h : l.Pairwise Q) :
    (l.insertionSort r).Pairwise Q := by
  induction l with
  | nil => simp
  | cons x xs ih =>
      rcases List.pairwise_cons.mp h with ⟨hx, hxs⟩
      simp only [List.insertionSort]
      apply pairwise_orderedInsert r Q hrQ
      · intro b hb
        exact hx b ((List.mem_insertionSort r).mp hb)
      · exact ih hxs

theorem find?_map_keyfun {α : Type} (l : List (Nat × α)) (g : Nat × α → Nat × α)
    (hg : ∀ p, (g p).1 = p.1) (d : Nat) :
    (l.map g).find? (fun p => p.1 = d) = (l.find? (fun p => p.1 = d)).map g := by
  induction l with
  | nil => rfl
  | cons p t ih =>
      by_cases h : p.1 = d
      · simp only [List.map_cons]
        rw [List.find?_cons_of_pos _ (by simp [hg, h]),
          List.find?_cons_of_pos _ (by simp [h])]
        rfl
      · simp only [List.map_cons]
        rw [List.find?_cons_of_neg _ (by simp [hg, h]),
          List.find?_cons_of_neg _ (by simp [h])]
        exact ih

theorem mem_keys_of_lookup (s : TMState) (d : Nat) (h : (lookupTask s d).isSome) :
    d ∈ s.tasks.map Prod.fst := by
  unfold lookupTask at h
  cases hf : s.tasks.find? (fun p => p.1 = d) with
  | none => rw [hf] at h; simp at h
  | some p =>
      have hmem := List.mem_of_find?_eq_some hf
      have hkey : p.1 = d := by simpa using List.find?_some hf
      exact hkey ▸ List.mem_map_of_mem Prod.fst hmem

theorem lookup_lt_nextId (s : TMState) (hlt : ∀ p ∈ s.tasks, p.1 < s.nextId)
    (d : Nat) (h : (lookupTask s d).isSome) : d < s.nextId := by
  unfold lookupTask at h
  cases hf : s.tasks.find? (fun p => p.1 = d) with
  | none => rw [hf] at h; simp at h
  | some p =>
      have hmem := List.mem_of_find?_eq_some hf
      have hkey : p.1 = d := by simpa using List.find?_some hf
      exact hkey ▸ hlt p hmem

theorem queue_nodup_of_tie (s : TMState)
    (h : s.taskQueue.Pairwise (fun a b => getPriority s a = getPriority s b → a < b)) :
    s.taskQueue.Nodup := by
  apply List.Pairwise.imp _ h
  intro a b hab heq
  rw [heq] at hab
  exact absurd (hab rfl) (lt_irrefl b)

theorem TMInv_init : TMInv TMState.init := by
  refine ⟨?_, ?_, ?_, ?_, ?_⟩ <;> simp [TMState.init]

theorem TMInv_updateTask (s : TMState) (tid : Nat)
    (f : CollaborativeTask → CollaborativeTask) (hInv : TMInv s)
    (hp : ∀ u, (f u).priority = u.priority)
    (hs : ∀ u, u.status ≠ TaskStatus.COMPLETED →
      (f u).status ≠ TaskStatus.COMPLETED) :
    TMInv (updateTask s tid f) := by
  obtain ⟨h1, h2, h3, h4, h5⟩ := hInv
  refine ⟨?_, ?_, ?_, ?_, ?_⟩
  · intro p hp'
    obtain ⟨p0, hp0, hpe⟩ := List.mem_map.mp hp'
    have hkey : ((if p0.1 = tid then (p0.1, f p0.2) else p0)
        : Nat × CollaborativeTask).1 = p0.1 := by
      split <;> rfl
    rw [← hpe, hkey]
    exact h1 p0 hp0
  · rw [keys_updateTask]
    exact h2
  · intro d hd
    by_cases hdt : d = tid
    · subst hdt
      rcases Option.isSome_iff_exists.mp (h3 d hd) with ⟨t, ht⟩
      rw [lookupTask_updateTask_self, ht]
      rfl
    · rw [lookupTask_updateTask_ne _ _ _ _ hdt]
      exact h3 d hd
  · intro d hd t ht
    by_cases hdt : d = tid
    · subst hdt
      rw [lookupTask_updateTask_self] at ht
      cases hl : lookupTask s d with
      | none => rw [hl] at ht; simp at ht
      | some u =>
          rw [hl] at ht
          simp only [Option.map] at ht
          cases ht
          exact hs u (h4 d hd u hl)
    · rw [lookupTask_updateTask_ne _ _ _ _ hdt] at ht
      exact h4 d hd t ht
  · have hgp : ∀ d, getPriority (updateTask s tid f) d = getPriority s d :=
      fun d => getPriority_updateTask s tid d f hp
    exact List.Pairwise.imp
      (fun {a b} hab heq => hab (by rw [← hgp a, ← hgp b]; exact heq)) h5

theorem find?_append_single_ne {α : Type} (l : List (Nat × α)) (k d : Nat) (t : α)
    (hd : d ≠ k) :
    (l ++ [(k, t)]).find? (fun p => p.1 = d) = l.find? (fun p => p.1 = d) := by
  rw [List.find?_append]
  cases hf : l.find? (fun p => p.1 = d) with
  | some p => rfl
  | none =>
      show Option.or none _ = none
      have : List.find? (fun p => decide (p.1 = d)) [(k, t)] = none := by
        rw [List.find?_eq_none]
        intro p hp
        rcases List.mem_singleton.mp hp with rfl
        simpa using Ne.symm hd
      rw [this]
      rfl

theorem TMInv_create (s : TMState) (hInv : TMInv s) (tt : TaskType) (desc : String)
    (prio : Nat) (deps : List Nat) (now : Nat) :
    TMInv (applyOp s (TMOp.create tt desc prio deps now)) := by
  obtain ⟨h1, h2, h3, h4, h5⟩ := hInv
  set nt : CollaborativeTask :=
    { taskType := tt, description := desc, priority := prio
      status := TaskStatus.PENDING, assignedTo := none
      createdAt := now, updatedAt := now, dependencies := deps } with hnt
  have htasks : (applyOp s (TMOp.create tt desc prio deps now)).tasks
      = s.tasks ++ [(s.nextId, nt)] := rfl
  have hqueue : (applyOp s (TMOp.create tt desc prio deps now)).taskQueue
      = s.taskQueue ++ [s.nextId] := rfl
  have hnext : (applyOp s (TMOp.create tt desc prio deps now)).nextId
      = s.nextId + 1 := rfl
  have hlook_pres : ∀ d, d ≠ s.nextId →
      lookupTask (applyOp s (TMOp.create tt desc prio deps now)) d
        = lookupTask s d := by
    intro d hd
    unfold lookupTask
    rw [htasks, find?_append_single_ne s.tasks s.nextId d nt hd]
  have hlook_new : lookupTask (applyOp s (TMOp.create tt desc prio deps now)) s.nextId
      = some nt := by
    unfold lookupTask
    rw [htasks]
    exact lookupTask_append_new s.tasks s.nextId nt
      (fun p hp => Nat.ne_of_lt (h1 p hp))
  have hqmem_lt : ∀ d ∈ s.taskQueue, d < s.nextId :=
    fun d hd => lookup_lt_nextId s h1 d (h3 d hd)
  have hgp_pres : ∀ d ∈ s.taskQueue,
      getPriority (applyOp s (TMOp.create tt desc prio deps now)) d
        = getPriority s d := by
    intro d hd
    unfold getPriority
    rw [hlook_pres d (Nat.ne_of_lt (hqmem_lt d hd))]
  refine ⟨?_, ?_, ?_, ?_, ?_⟩
  · intro p hp
    rw [htasks] at hp
    rw [hnext]
    rcases List.mem_append.mp hp with hp | hp
    · exact Nat.lt_succ_of_lt (h1 p hp)
    · rcases List.mem_singleton.mp hp with rfl
      exact Nat.lt_succ_self _
  · rw [htasks, List.map_append, List.nodup_append]
    refine ⟨h2, by simp, ?_⟩
    intro a ha hb
    simp only [List.map_cons, List.map_nil, List.mem_singleton] at hb
    subst hb
    obtain ⟨p, hp, hpe⟩ := List.mem_map.mp ha
    exact absurd (hpe ▸ h1 p hp) (lt_irrefl _)
  · intro d hd
    rw [hqueue] at hd
    rcases List.mem_append.mp hd with hd | hd
    · rw [hlook_pres d (Nat.ne_of_lt (hqmem_lt d hd))]
      exact h3 d hd
    · rcases List.mem_singleton.mp hd with rfl
      rw [hlook_new]
      rfl
  · intro d hd t ht
    rw [hqueue] at hd
    rcases List.mem_append.mp hd with hd | hd
    · rw [hlook_pres d (Nat.ne_of_lt (hqmem_lt d hd))] at ht
      exact h4 d hd t ht
    · rcases List.mem_singleton.mp hd with rfl
      rw [hlook_new] at ht
      cases ht
      simp [hnt]
  · rw [hqueue, List.pairwise_append]
    refine ⟨?_, by simp, ?_⟩
    · refine List.Pairwise.imp_of_mem ?_ h5
      intro a b ha hb hab heq
      apply hab
      rw [← hgp_pres a ha, ← hgp_pres b hb]
      exact heq
    · intro a ha b hb _
      rcases List.mem_singleton.mp hb with rfl
      exact hqmem_lt a ha

theorem TMInv_complete (s : TMState) (hInv : TMInv s) (tid now : Nat) :
    TMInv (applyOp s (TMOp.complete tid now)) := by
  obtain ⟨h1, h2, h3, h4, h5⟩ := hInv
  show TMInv (if (lookupTask s tid).isSome then _ else s)
  by_cases hf : (lookupTask s tid).isSome
  · rw [if_pos hf]
    have hnodup := queue_nodup_of_tie s h5
    set f : CollaborativeTask → CollaborativeTask :=
      fun t => { t with status := TaskStatus.COMPLETED, updatedAt := now } with hfdef
    have hgp : ∀ d, getPriority (updateTask s tid f) d = getPriority s d :=
      fun d => getPriority_updateTask s tid d f (fun u => rfl)
    refine ⟨?_, ?_, ?_, ?_, ?_⟩
    · intro p hp
      obtain ⟨p0, hp0, hpe⟩ := List.mem_map.mp hp
      have hkey : ((if p0.1 = tid then (p0.1, f p0.2) else p0)
          : Nat × CollaborativeTask).1 = p0.1 := by
        split <;> rfl
      rw [← hpe, hkey]
      exact h1 p0 hp0
    · show ((updateTask s tid f).tasks.map Prod.fst).Nodup
      rw [keys_updateTask]
      exact h2
    · intro d hd
      have hd' := (hnodup.mem_erase_iff).mp hd
      show (lookupTask (updateTask s tid f) d).isSome
      rw [lookupTask_updateTask_ne _ _ _ _ hd'.1]
      exact h3 d hd'.2
    · intro d hd t ht
      have hd' := (hnodup.mem_erase_iff).mp hd
      have ht2 : lookupTask (updateTask s tid f) d = some t := ht
      rw [lookupTask_updateTask_ne _ _ _ _ hd'.1] at ht2
      exact h4 d hd'.2 t ht2
    · have hsub : List.Sublist ((updateTask s tid f).taskQueue.erase tid)
          s.taskQueue := by
        show List.Sublist (s.taskQueue.erase tid) s.taskQueue
        exact List.erase_sublist tid s.taskQueue
      have hp5 : List.Pairwise (fun a b => getPriority (updateTask s tid f) a
          = getPriority (updateTask s tid f) b → a < b) s.taskQueue :=
        List.Pairwise.imp
          (fun {a b} hab heq => hab (by rw [← hgp a, ← hgp b]; exact heq)) h5
      exact hp5.sublist hsub
  · rw [if_neg hf]
    exact ⟨h1, h2, h3, h4, h5⟩

theorem lookupTask_autoAssign_char (s : TMState) (now : Nat) (d : Nat) :
    lookupTask (applyOp s (TMOp.autoAssign now)) d = lookupTask s d
    ∨ ∃ t role, lookupTask s d = some t
        ∧ taskAssignmentRules t.taskType = some role
        ∧ lookupTask (applyOp s (TMOp.autoAssign now)) d
            = some { t with
                assignedTo := some role
                status := TaskStatus.ASSIGNED
                updatedAt := now } := by
  have hg : ∀ p : Nat × CollaborativeTask,
      ((if p.2.status = TaskStatus.PENDING ∧ p.1 ∈ s.taskQueue then
        match taskAssignmentRules p.2.taskType with
        | some role => (p.1,
            { p.2 with
              assignedTo := some role
              status := TaskStatus.ASSIGNED
              updatedAt := now })
        | none => p
      else p) : Nat × CollaborativeTask).1 = p.1 := by
    intro p
    split
    · split <;> rfl
    · rfl
  have happ : lookupTask (applyOp s (TMOp.autoAssign now)) d
      = ((s.tasks.map (fun p =>
          if p.2.status = TaskStatus.PENDING ∧ p.1 ∈ s.taskQueue then
            match taskAssignmentRules p.2.taskType with
            | some role => (p.1,
                { p.2 with
                  assignedTo := some role
                  status := TaskStatus.ASSIGNED
                  updatedAt := now })
            | none => p
          else p)).find? (fun p => p.1 = d)).map (·.2) := rfl
  rw [happ, find?_map_keyfun s.tasks _ hg d]
  cases hfind : s.tasks.find? (fun p => p.1 = d) with
  | none =>
      left
      unfold lookupTask
      rw [hfind]
      rfl
  | some p =>
      have hlk : lookupTask s d = some p.2 := by
        unfold lookupTask
        rw [hfind]
        rfl
      by_cases hc : p.2.status = TaskStatus.PENDING ∧ p.1 ∈ s.taskQueue
      · cases hr : taskAssignmentRules p.2.taskType with
        | none =>
            left
            rw [hlk]
            simp only [Option.map_map, Option.map]
            rw [if_pos hc, hr]
        | some role =>
            right
            refine ⟨p.2, role, hlk, hr, ?_⟩
            simp only [Option.map_map, Option.map]
            rw [if_pos hc, hr]
      · left
        rw [hlk]
        simp only [Option.map_map, Option.map]
        rw [if_neg hc]

theorem TMInv_autoAssign (s : TMState) (hInv : TMInv s) (now : Nat) :
    TMInv (applyOp s (TMOp.autoAssign now)) := by
  obtain ⟨h1, h2, h3, h4, h5⟩ := hInv
  have hchar := lookupTask_autoAssign_char s now
  have hgp : ∀ d, getPriority (applyOp s (TMOp.autoAssign now)) d
      = getPriority s d := by
    intro d
    rcases hchar d with h | ⟨t, role, ht, _, ht'⟩
    · unfold getPriority
      rw [h]
    · unfold getPriority
      rw [ht, ht']
  have hg : ∀ p : Nat × CollaborativeTask,
      ((if p.2.status = TaskStatus.PENDING ∧ p.1 ∈ s.taskQueue then
        match taskAssignmentRules p.2.taskType with
        | some role => (p.1,
            { p.2 with
              assignedTo := some role
              status := TaskStatus.ASSIGNED
              updatedAt := now })
        | none => p
      else p) : Nat × CollaborativeTask).1 = p.1 := by
    intro p
    split
    · split <;> rfl
    · rfl
  refine ⟨?_, ?_, ?_, ?_, ?_⟩
  · intro p hp
    obtain ⟨p0, hp0, hpe⟩ := List.mem_map.mp hp
    rw [← hpe, hg p0]
    exact h1 p0 hp0
  · show ((s.tasks.map _).map Prod.fst).Nodup
    rw [List.map_map]
    have : (Prod.fst ∘ fun p : Nat × CollaborativeTask =>
        (if p.2.status = TaskStatus.PENDING ∧ p.1 ∈ s.taskQueue then
          match taskAssignmentRules p.2.taskType with
          | some role => (p.1,
              { p.2 with
                assignedTo := some role
                status := TaskStatus.ASSIGNED
                updatedAt := now })
          | none => p
        else p)) = Prod.fst := funext (fun p => hg p)
    rw [this]
    exact h2
  · intro d hd
    rcases hchar d with h | ⟨t, role, ht, _, ht'⟩
    · rw [h]
      exact h3 d hd
    · rw [ht']
      rfl
  · intro d hd t ht
    rcases hchar d with h | ⟨t0, role, ht0, _, ht0'⟩
    · rw [h] at ht
      exact h4 d hd t ht
    · rw [ht0'] at ht
      cases ht
      simp
  · exact List.Pairwise.imp
      (fun {a b} hab heq => hab (by rw [← hgp a, ← hgp b]; exact heq)) h5

theorem TMInv_getNext (s : TMState) (hInv : TMInv s) (now : Nat) :
    TMInv (applyOp s (TMOp.getNext now)) := by
  obtain ⟨h1, h2, h3, h4, h5⟩ := hInv
  show TMInv (getNextTask now s).2
  unfold getNextTask
  by_cases he : s.taskQueue.isEmpty
  · rw [if_pos he]
    exact ⟨h1, h2, h3, h4, h5⟩
  · rw [if_neg he]
    set sorted := List.insertionSort (priorityLE s) s.taskQueue with hsorted
    set s1 : TMState := { s with taskQueue := sorted } with hs1
    have hmem : ∀ x, x ∈ sorted ↔ x ∈ s.taskQueue :=
      fun x => List.mem_insertionSort (priorityLE s)
    have hl1 : ∀ d, lookupTask s1 d = lookupTask s d := fun d => rfl
    have hnc1 : ∀ q ∈ sorted, ∀ t, lookupTask s1 q = some t →
        t.status ≠ TaskStatus.COMPLETED := by
      intro q hq t ht
      exact h4 q ((hmem q).mp hq) t ht
    refine ⟨?_, ?_, ?_, ?_, ?_⟩
    · intro p hp
      have hkeys := scanQueue_keys now sorted s1
      have : p.1 ∈ (scanQueue now sorted s1).2.tasks.map Prod.fst :=
        List.mem_map_of_mem Prod.fst hp
      rw [hkeys] at this
      obtain ⟨p0, hp0, hpe⟩ := List.mem_map.mp this
      rw [scanQueue_nextId, show s1.nextId = s.nextId from rfl, ← hpe]
      exact h1 p0 hp0
    · rw [scanQueue_keys]
      exact h2
    · intro d hd
      rw [scanQueue_queue] at hd
      have hd' : d ∈ s.taskQueue := (hmem d).mp hd
      rcases scanQueue_lookup_char now sorted s1 d with h | ⟨t, ht, ht'⟩
      · rw [h, hl1]
        exact h3 d hd'
      · rw [ht']
        rfl
    · intro d hd t ht
      rw [scanQueue_queue] at hd
      have hd' : d ∈ s.taskQueue := (hmem d).mp hd
      rcases scanQueue_lookup_char now sorted s1 d with h | ⟨t0, ht0, ht0'⟩
      · rw [h, hl1] at ht
        exact h4 d hd' t ht
      · rw [ht0'] at ht
        cases ht
        simp
    · rw [scanQueue_queue]
      show sorted.Pairwise _
      have hQ : sorted.Pairwise
          (fun a b => getPriority s a = getPriority s b → a < b) := by
        apply pairwise_insertionSort (priorityLE s)
        · intro a b hr heq
          exact ((hr (le_of_eq heq.symm)).elim)
        · exact h5
      refine List.Pairwise.imp ?_ hQ
      intro a b hab heq
      apply hab
      have hp1 : ∀ dd : Nat, getPriority s1 dd = getPriority s dd := fun _ => rfl
      rw [← hp1 a, ← hp1 b, ← scanQueue_getPriority now sorted s1 a,
        ← scanQueue_getPriority now sorted s1 b]
      exact heq

theorem TMInv_step (s : TMState) (hInv : TMInv s) (op : TMOp) :
    TMInv (applyOp s op) := by
  cases op with
  | create tt desc prio deps now => exact TMInv_create s hInv tt desc prio deps now
  | assign tid role now =>
      show TMInv (if (lookupTask s tid).isSome then _ else s)
      by_cases hf : (lookupTask s tid).isSome
      · rw [if_pos hf]
        exact TMInv_updateTask s tid _ hInv (fun u => rfl)
          (fun u _ hc => nomatch hc)
      · rw [if_neg hf]
        exact hInv
  | complete tid now => exact TMInv_complete s hInv tid now
  | setDeps tid deps now =>
      show TMInv (if (lookupTask s tid).isSome then _ else s)
      by_cases hf : (lookupTask s tid).isSome
      · rw [if_pos hf]
        exact TMInv_updateTask s tid _ hInv (fun u => rfl) (fun u h => h)
      · rw [if_neg hf]
        exact hInv
  | getNext now => exact TMInv_getNext s hInv now
  | autoAssign now => exact TMInv_autoAssign s hInv now

theorem reachable_TMInv (s : TMState) (h : Reachable s) : TMInv s := by
  induction h with
  | init => exact TMInv_init
  | step op _ ih => exact TMInv_step _ ih op

theorem scanQueue_mark_blocked (now : Nat) (l : List Nat) (s : TMState)
    (hnc : ∀ q ∈ l, ∀ t, lookupTask s q = some t → t.status ≠ TaskStatus.COMPLETED)
    (tid : Nat) :
    lookupTask (scanQueue now l s).2 tid = lookupTask s tid
    ∨ isTaskBlocked s tid = true := by
  induction l generalizing s with
  | nil => left; rfl
  | cons q rest ih =>
      by_cases hb : isTaskBlocked s q
      · have hscan : scanQueue now (q :: rest) s
            = scanQueue now rest (markBlocked s q now) := by
          show (if isTaskBlocked s q = true then
              scanQueue now rest (markBlocked s q now)
            else (Option.map (fun t => (q, t)) (lookupTask s q), s)) = _
          rw [if_pos hb]
        rw [hscan]
        have hq := hnc q (List.mem_cons_self q rest)
        have hnc2 : ∀ q' ∈ rest, ∀ u,
            lookupTask (markBlocked s q now) q' = some u →
            u.status ≠ TaskStatus.COMPLETED := by
          intro q' hq' u hu
          rcases lookupTask_markBlocked s q now q' with h2 | ⟨_, t0, ht0, ht0'⟩
          · rw [h2] at hu
            exact hnc q' (List.mem_cons_of_mem q hq') u hu
          · rw [ht0'] at hu
            cases hu
            simp
        rcases ih (markBlocked s q now) hnc2 with heq | hblk
        · by_cases htq : tid = q
          · subst htq
            right
            exact hb
          · left
            rw [heq, lookupTask_markBlocked_ne s q now tid htq]
        · right
          rw [← isTaskBlocked_markBlocked s q now hq tid]
          exact hblk
      · have hscan : scanQueue now (q :: rest) s
            = ((lookupTask s q).map (fun u => (q, u)), s) := by
          show (if isTaskBlocked s q = true then
              scanQueue now rest (markBlocked s q now)
            else (Option.map (fun t => (q, t)) (lookupTask s q), s)) = _
          rw [if_neg (by simpa using hb)]
        rw [hscan]
        left
        rfl

/-- C1 counterexample: creating a task whose dependency id `5` does not
resolve leaves it with status `PENDING`, not `BLOCKED`, even though
`_is_task_blocked` holds for it — the claimed biconditional between the
stored status and dependency satisfaction fails after this operation
sequence. -/
theorem blocked_status_counterexample :
    isTaskBlocked (runOps TMState.init
        [TMOp.create TaskType.CODE_IMPLEMENTATION "implement parser" 3 [5] 0]) 0 = true
    ∧ (lookupTask (runOps TMState.init
        [TMOp.create TaskType.CODE_IMPLEMENTATION "implement parser" 3 [5] 0]) 0).map
        (·.status) = some TaskStatus.PENDING
    ∧ TaskStatus.PENDING ≠ TaskStatus.BLOCKED := by
  refine ⟨by decide, by decide, by decide⟩

/-- C1 (amended): over all reachable `TaskManager` states, a task's
status *transitions to* `BLOCKED` only during an operation that finds at
least one of its dependency ids absent from the store or resolving to a
task that is not `COMPLETED` (the marking inside `get_next_task`); the
stored status is not otherwise kept in sync with dependency
satisfaction — a task with an unmet dependency can remain `PENDING`
until scanned, and a `BLOCKED` status can persist after its dependencies
complete. -/
theorem status_blocked_transition (s : TMState) (hreach : Reachable s) (op : TMOp)
    (tid : Nat) (t t' : CollaborativeTask)
    (h : lookupTask s tid = some t) (hnb : t.status ≠ TaskStatus.BLOCKED)
    (h' : lookupTask (applyOp s op) tid = some t')
    (hb : t'.status = TaskStatus.BLOCKED) :
    isTaskBlocked s tid = true := by
  obtain ⟨h1, h2, h3, h4, h5⟩ := reachable_TMInv s hreach
  cases op with
  | create tt desc prio deps now =>
      have hpres : lookupTask (applyOp s (TMOp.create tt desc prio deps now)) tid
          = some t := find?_append_of_found s.tasks _ tid t h
      rw [hpres] at h'
      cases h'
      exact absurd hb hnb
  | assign tid' role now =>
      revert h'
      show lookupTask (if (lookupTask s tid').isSome then _ else s) tid = some t' → _
      by_cases hf : (lookupTask s tid').isSome
      · rw [if_pos hf]
        by_cases htq : tid = tid'
        · subst htq
          rw [lookupTask_updateTask_self, h]
          intro h'
          simp only [Option.map] at h'
          cases h'
          exact nomatch hb
        · rw [lookupTask_updateTask_ne _ _ _ _ htq, h]
          intro h'
          cases h'
          exact absurd hb hnb
      · rw [if_neg hf, h]
        intro h'
        cases h'
        exact absurd hb hnb
  | complete tid' now =>
      revert h'
      show lookupTask (if (lookupTask s tid').isSome then _ else s) tid = some t' → _
      by_cases hf : (lookupTask s tid').isSome
      · rw [if_pos hf]
        intro h'
        have h'' : lookupTask (updateTask s tid'
            (fun u => { u with status := TaskStatus.COMPLETED, updatedAt := now }))
            tid = some t' := h'
        by_cases htq : tid = tid'
        · subst htq
          rw [lookupTask_updateTask_self, h] at h''
          simp only [Option.map] at h''
          cases h''
          exact nomatch hb
        · rw [lookupTask_updateTask_ne _ _ _ _ htq, h] at h''
          cases h''
          exact absurd hb hnb
      · rw [if_neg hf, h]
        intro h'
        cases h'
        exact absurd hb hnb
  | setDeps tid' deps now =>
      revert h'
      show lookupTask (if (lookupTask s tid').isSome then _ else s) tid = some t' → _
      by_cases hf : (lookupTask s tid').isSome
      · rw [if_pos hf]
        by_cases htq : tid = tid'
        · subst htq
          rw [lookupTask_updateTask_self, h]
          intro h'
          simp only [Option.map] at h'
          cases h'
          exact absurd hb hnb
        · rw [lookupTask_updateTask_ne _ _ _ _ htq, h]
          intro h'
          cases h'
          exact absurd hb hnb
      · rw [if_neg hf, h]
        intro h'
        cases h'
        exact absurd hb hnb
  | autoAssign now =>
      rcases lookupTask_autoAssign_char s now tid with hch | ⟨t0, role, ht0, _, ht0'⟩
      · rw [hch, h] at h'
        cases h'
        exact absurd hb hnb
      · rw [ht0'] at h'
        cases h'
        exact nomatch hb
  | getNext now =>
      revert h'
      show lookupTask (getNextTask now s).2 tid = some t' → _
      unfold getNextTask
      by_cases he : s.taskQueue.isEmpty
      · rw [if_pos he, h]
        intro h'
        cases h'
        exact absurd hb hnb
      · rw [if_neg he]
        set sorted := List.insertionSort (priorityLE s) s.taskQueue with hsorted
        set s1 : TMState := { s with taskQueue := sorted } with hs1
        have hnc1 : ∀ q ∈ sorted, ∀ u, lookupTask s1 q = some u →
            u.status ≠ TaskStatus.COMPLETED := by
          intro q hq u hu
          exact h4 q ((List.mem_insertionSort (priorityLE s)).mp hq) u hu
        intro h'
        rcases scanQueue_mark_blocked now sorted s1 hnc1 tid with heq | hblk
        · rw [heq] at h'
          have hl1 : lookupTask s1 tid = some t := h
          rw [hl1] at h'
          cases h'
          exact absurd hb hnb
        · exact hblk

theorem status_blocked_transition_witness :
    isTaskBlocked (applyOp TMState.init
      (TMOp.create TaskType.CODE_IMPLEMENTATION "w" 1 [5] 0)) 0 = true :=
  status_blocked_transition _ (Reachable.step _ Reachable.init) (TMOp.getNext 0) 0
    ⟨TaskType.CODE_IMPLEMENTATION, "w", 1, TaskStatus.PENDING, none, 0, 0, [5]⟩
    ⟨TaskType.CODE_IMPLEMENTATION, "w", 1, TaskStatus.BLOCKED, none, 0, 0, [5]⟩
    (by decide) (by decide) (by decide) (by decide)

/-- C2: on every reachable state, `get_next_task` (i) keeps exactly the
queued ids in the queue (blocked candidates are not removed), (ii) when
it returns `None` every queued task was dependency-blocked and ends up
stored with status `BLOCKED` (no error is raised), and (iii) when it
returns a task, that task is queued, stored, has all its dependencies
met, and among all dependency-met queued candidates it has the minimal
priority number, ties broken by the smaller (earlier-created) id. -/
theorem getNextTask_spec (now : Nat) (s : TMState) (hreach : Reachable s) :
    (∀ x, x ∈ (getNextTask now s).2.taskQueue ↔ x ∈ s.taskQueue)
    ∧ ((getNextTask now s).1 = none →
        ∀ q ∈ s.taskQueue, isTaskBlocked s q = true
          ∧ ∀ u, lookupTask (getNextTask now s).2 q = some u →
              u.status = TaskStatus.BLOCKED)
    ∧ (∀ tid t, (getNextTask now s).1 = some (tid, t) →
        tid ∈ s.taskQueue
        ∧ lookupTask s tid = some t
        ∧ isTaskBlocked s tid = false
        ∧ ∀ d ∈ s.taskQueue, isTaskBlocked s d = false →
            getPriority s tid < getPriority s d
            ∨ (getPriority s tid = getPriority s d ∧ tid ≤ d)) := by
  obtain ⟨h1, h2, h3, h4, h5⟩ := reachable_TMInv s hreach
  unfold getNextTask
  by_cases he : s.taskQueue.isEmpty
  · rw [if_pos he]
    have hqnil : s.taskQueue = [] := by
      cases hq : s.taskQueue with
      | nil => rfl
      | cons a l => rw [hq] at he; exact nomatch he
    refine ⟨fun x => Iff.rfl, ?_, ?_⟩
    · intro _ q hq
      rw [hqnil] at hq
      exact absurd hq (List.not_mem_nil q)
    · intro tid t h
      exact nomatch h
  · rw [if_neg he]
    set sorted := List.insertionSort (priorityLE s) s.taskQueue with hsorteddef
    set s1 : TMState := { s with taskQueue := sorted } with hs1
    have hmem : ∀ x, x ∈ sorted ↔ x ∈ s.taskQueue := by
      intro x
      rw [hsorteddef]
      exact List.mem_insertionSort (priorityLE s)
    have hlk1 : ∀ d, lookupTask s1 d = lookupTask s d := fun _ => rfl
    have hblk1 : ∀ d, isTaskBlocked s1 d = isTaskBlocked s d := fun _ => rfl
    have hnc : ∀ q ∈ sorted, ∀ u, lookupTask s1 q = some u →
        u.status ≠ TaskStatus.COMPLETED := by
      intro q hq u hu
      exact h4 q ((hmem q).mp hq) u hu
    refine ⟨?_, ?_, ?_⟩
    · intro x
      rw [scanQueue_queue]
      exact hmem x
    · intro h q hq
      have hqs : q ∈ sorted := (hmem q).mpr hq
      have hsub : ∀ q' ∈ sorted, (lookupTask s1 q').isSome := by
        intro q' hq'
        exact h3 q' ((hmem q').mp hq')
      have hspec := scanQueue_none_spec now sorted s1 hnc hsub h q hqs
      exact ⟨hspec.1, hspec.2⟩
    · intro tid t h
      obtain ⟨pre, rest, hsplit, hpreb, htb, hlt⟩ :=
        scanQueue_some_spec now sorted s1 hnc tid t h
      have htmem : tid ∈ sorted := by
        rw [hsplit]
        exact List.mem_append_right pre (List.mem_cons_self tid rest)
      have hQ : sorted.Pairwise
          (fun a b => getPriority s a = getPriority s b → a < b) := by
        rw [hsorteddef]
        exact pairwise_insertionSort (priorityLE s)
          (fun a b => getPriority s a = getPriority s b → a < b)
          (fun a b hnab heq => absurd (Nat.le_of_eq heq.symm) hnab)
          s.taskQueue h5
      have hsort : sorted.Pairwise (priorityLE s) := by
        rw [hsorteddef]
        exact List.sorted_insertionSort (priorityLE s) s.taskQueue
      have hsubl : List.Sublist (tid :: rest) sorted := by
        rw [hsplit]
        exact List.sublist_append_right pre (tid :: rest)
      have hQt : ∀ b ∈ rest, getPriority s tid = getPriority s b → tid < b :=
        (List.pairwise_cons.mp (hQ.sublist hsubl)).1
      have hst : ∀ b ∈ rest, priorityLE s tid b :=
        (List.pairwise_cons.mp (hsort.sublist hsubl)).1
      refine ⟨(hmem tid).mp htmem, hlt, htb, ?_⟩
      intro d hd hdnb
      have hds : d ∈ sorted := (hmem d).mpr hd
      rw [hsplit] at hds
      rcases List.mem_append.mp hds with hdpre | hdtail
      · have hcontr : isTaskBlocked s d = true := hpreb d hdpre
        rw [hdnb] at hcontr
        exact nomatch hcontr
      · rcases List.mem_cons.mp hdtail with hdeq | hdrest
        · subst hdeq
          exact Or.inr ⟨rfl, Nat.le_refl _⟩
        · have hple : getPriority s tid ≤ getPriority s d := hst d hdrest
          rcases Nat.eq_or_lt_of_le hple with heq | hltp
          · exact Or.inr ⟨heq, Nat.le_of_lt (hQt d hdrest heq)⟩
          · exact Or.inl hltp

theorem getNextTask_spec_witness :
    0 ∈ (runOps TMState.init
      [TMOp.create TaskType.PLANNING "plan" 2 [] 0,
       TMOp.create TaskType.TESTING "test" 1 [99] 0]).taskQueue
    ∧ lookupTask (runOps TMState.init
      [TMOp.create TaskType.PLANNING "plan" 2 [] 0,
       TMOp.create TaskType.TESTING "test" 1 [99] 0]) 0
      = some ⟨TaskType.PLANNING, "plan", 2, TaskStatus.PENDING, none, 0, 0, []⟩
    ∧ isTaskBlocked (runOps TMState.init
      [TMOp.create TaskType.PLANNING "plan" 2 [] 0,
       TMOp.create TaskType.TESTING "test" 1 [99] 0]) 0 = false := by
  have hr : Reachable (runOps TMState.init
      [TMOp.create TaskType.PLANNING "plan" 2 [] 0,
       TMOp.create TaskType.TESTING "test" 1 [99] 0]) :=
    Reachable.step (TMOp.create TaskType.TESTING "test" 1 [99] 0)
      (Reachable.step (TMOp.create TaskType.PLANNING "plan" 2 [] 0) Reachable.init)
  have h := (getNextTask_spec 5 (runOps TMState.init
      [TMOp.create TaskType.PLANNING "plan" 2 [] 0,
       TMOp.create TaskType.TESTING "test" 1 [99] 0]) hr).2.2 0
      ⟨TaskType.PLANNING, "plan", 2, TaskStatus.PENDING, none, 0, 0, []⟩
      (by decide)
  exact ⟨h.1, h.2.1, h.2.2.1⟩

end PorkerVibe
